import Mathlib

/-!
Shallow embedding of the serverless GitHub-manager request handlers
(supabase/functions/*) and proofs about them.

Each handler is embedded as a pure function from the parsed-or-raw request
body, the authentication inputs (session validity, stored profile row) and
an oracle describing the upstream GitHub API's responses, to the pair of
the JSON/HTTP response and the ordered list of upstream calls the handler
issues.  Strings are manipulated through their character lists so that all
definitions evaluate by kernel reduction.
-/

namespace RepoPush

/-! ## Character-list string operations (JS semantics) -/

/-- Character-list prefix test used to mirror JS `String.prototype.startsWith`
and the zod path checks. -/
def hasPfx : List Char → List Char → Bool
  | [], _ => true
  | _ :: _, [] => false
  | a :: as, b :: bs => a == b && hasPfx as bs

/-- Substring occurrence test on character lists, mirroring JS
`String.prototype.includes`. -/
def hasSub (sub : List Char) : List Char → Bool
  | [] => sub.isEmpty
  | x :: xs => hasPfx sub (x :: xs) || hasSub sub xs

/-- JS `s.includes(sub)`. -/
def jsIncludes (s sub : String) : Bool := hasSub sub.data s.data

/-- JS `s.startsWith(p)`. -/
def jsStarts (s p : String) : Bool := hasPfx p.data s.data

/-- JS `s.endsWith(p)`. -/
def jsEnds (s p : String) : Bool := hasPfx p.data.reverse s.data.reverse

/-- Auxiliary splitter: JS `String.prototype.split` on a single character,
with an accumulator for the current segment (kept reversed). -/
def splitChAux (c : Char) : List Char → List Char → List (List Char)
  | [], acc => [acc.reverse]
  | x :: xs, acc =>
    if x == c then acc.reverse :: splitChAux c xs []
    else splitChAux c xs (x :: acc)

/-- JS `s.split(c)` for a one-character separator. -/
def splitCh (c : Char) (l : List Char) : List (List Char) := splitChAux c l []

/-- JS `path.split('/').pop()`: the final slash-separated segment. -/
def lastSeg (s : String) : String := String.mk ((splitCh '/' s.data).getLastD [])

/-- JS string truthiness: the empty string is falsy.  `jsOr a b` is the JS
expression `a || b` for an optional string `a`. -/
def jsOr (a : Option String) (b : String) : String :=
  match a with
  | some s => if s = "" then b else s
  | none => b

/-- JS truthiness of an optional string (`undefined` and `""` are falsy). -/
def jsTruthy (a : Option String) : Bool :=
  match a with
  | some s => s ≠ ""
  | none => false

/-- Decimal digit character. -/
def digitCh (n : Nat) : Char := "0123456789".data.getD n '0'

/-- Fuel-driven decimal rendering of a natural number. -/
def natCharsAux : Nat → Nat → List Char
  | 0, _ => []
  | fuel + 1, n =>
    if n < 10 then [digitCh n] else natCharsAux fuel (n / 10) ++ [digitCh (n % 10)]

/-- Decimal rendering of a natural number (for zod issue paths like
`files.0.path`). -/
def natStr (n : Nat) : String := String.mk (natCharsAux (n + 1) n)

/-! ## Zod validation embedding -/

/-- One zod issue, rendered as the handlers do:
`e.path.join('.') ++ ": " ++ e.message`. -/
def issue (field msg : String) : String := field ++ ": " ++ msg

/-- Character class of the zod regex `[a-zA-Z0-9]`. -/
def alnum (c : Char) : Bool :=
  (97 ≤ c.toNat && c.toNat ≤ 122) || (65 ≤ c.toNat && c.toNat ≤ 90) ||
    (48 ≤ c.toNat && c.toNat ≤ 57)

/-- Character class of `/^[a-zA-Z0-9-]+$/` (owner names). -/
def ownerChar (c : Char) : Bool := alnum c || c == '-'

/-- Character class of `/^[a-zA-Z0-9._-]+$/` (repo names). -/
def repoChar (c : Char) : Bool := alnum c || c == '.' || c == '_' || c == '-'

/-- Character class of the branch-name regex (repo characters plus slash). -/
def branchChar (c : Char) : Bool := repoChar c || c == '/'

/-- A zod `.regex(/^[class]+$/)` check: nonempty and every character in the
class. -/
def matchesPlus (p : Char → Bool) (s : String) : Bool :=
  !s.data.isEmpty && s.data.all p

/-- The path refinement shared by create-file, delete-file and upload-files:
`(p) => !p.includes('..') && !p.startsWith('/')`. -/
def pathSafe (p : String) : Bool := !(jsIncludes p "..") && !(jsStarts p "/")

/-- Embedding of a required `z.string().min(minLen).max(maxLen).regex(pat)`
field: a missing field yields `Required`; a present one collects the failing
length checks and then the pattern check, in schema order. -/
def checkStr (field : String) (v : Option String) (minLen : Nat) (maxLen : Option Nat)
    (pat : Option ((String → Bool) × String)) : List String :=
  match v with
  | none => [issue field "Required"]
  | some s =>
    (if s.data.length < minLen then [issue field "String must contain at least " ] else []) ++
    (match maxLen with
     | some m => if m < s.data.length then [issue field "String must contain at most "] else []
     | none => []) ++
    (match pat with
     | some pr => if pr.1 s then [] else [issue field pr.2]
     | none => [])

/-- Embedding of `z.string().min(..).max(..).refine(f, msg)`: the refinement
only runs when the inner string schema succeeded. -/
def checkStrRefine (field : String) (v : Option String) (minLen : Nat) (maxLen : Option Nat)
    (f : String → Bool) (msg : String) : List String :=
  let base := checkStr field v minLen maxLen none
  if base = [] then
    match v with
    | some s => if f s then [] else [issue field msg]
    | none => []
  else base

/-- An optional string field: absent is fine, present is checked. -/
def checkOptStr (field : String) (v : Option String) (minLen : Nat) (maxLen : Option Nat)
    (pat : Option ((String → Bool) × String)) : List String :=
  match v with
  | none => []
  | some s => checkStr field (some s) minLen maxLen pat

/-! ## Core data model -/

/-- The caller's stored credential row (`profiles` table). -/
structure Profile where
  github_access_token : String
  github_username : String
deriving Repr, DecidableEq

/-- A parsed GitHub contents-API JSON body for an existing blob. -/
structure GitFile where
  content : String
  sha : String
deriving Repr, DecidableEq

/-- One node of a git tree listing (the four fields the delete-file handler
projects: path, mode, type, sha). -/
structure TreeEntry where
  path : String
  mode : String
  entryType : String
  sha : String
deriving Repr, DecidableEq

/-- Body of a contents-API PUT.  `sha` is the optional optimistic-concurrency
token; `none` means the field is omitted from the JSON body. -/
structure PutBody where
  message : String
  content : String
  branch : String
  sha : Option String
deriving Repr, DecidableEq

/-- One upstream GitHub API call, with the URL path parameters and body
fields the handlers supply. -/
inductive Call where
  | getContents (owner repo path ref : String)
  | putContents (owner repo path : String) (body : PutBody)
  | deleteContents (owner repo path message sha : String) (branch : Option String)
  | getRepo (owner repo : String)
  | ensureBranch (owner repo branch : String)
  | getTreeRecursive (owner repo ref : String)
  | getRef (owner repo branch : String)
  | getCommit (owner repo sha : String)
  | postTree (owner repo : String) (entries : List TreeEntry)
  | postCommit (owner repo message treeSha : String) (parents : List String)
  | patchRef (owner repo branch newSha : String)
  | patchRepo (owner repo : String) (newName : Option String)
  | putStar (owner repo : String)
  | deleteStar (owner repo : String)
  | postPull (owner repo : String)
deriving Repr, DecidableEq

/-- Per-file entry of the upload-files `results` array. -/
structure UploadResult where
  path : String
  success : Bool
  error : Option String := none
deriving Repr, DecidableEq

/-- The upload-files `summary` object. -/
structure UploadSummary where
  total : Nat
  successful : Nat
  failed : Nat
deriving Repr, DecidableEq

/-- The JSON body and status of a handler response.  Fields a given handler
does not emit keep their defaults. -/
structure Resp where
  status : Nat := 200
  success : Bool := false
  error : Option String := none
  details : Option (List String) := none
  detailStr : Option String := none
  results : List UploadResult := []
  summary : Option UploadSummary := none
  files_synced : Option Nat := none
  total_files : Option Nat := none
  new_name : Option String := none
  starredOut : Option Bool := none
deriving Repr, DecidableEq

/-- HTTP 2xx test, mirroring `Response.ok`. -/
def httpOk (n : Nat) : Bool := 200 ≤ n && n < 300

/-! ## move-files handler (upload-files/index.ts, second unit) -/

/-- A parsed element of the move-files `files` array. -/
structure MoveItem where
  path : String
  sha : String
  itemType : String
deriving Repr, DecidableEq

/-- A raw element of the move-files `files` array (fields may be absent). -/
structure MoveItemRaw where
  path : Option String := none
  sha : Option String := none
  itemType : Option String := none
deriving Repr, DecidableEq

/-- Raw move-files request body. -/
structure MoveFilesRaw where
  owner : Option String := none
  repo : Option String := none
  files : Option (List MoveItemRaw) := none
  destination : Option String := none
  branch : Option String := none
deriving Repr, DecidableEq

/-- Zod enum check for `z.enum(['file', 'dir'])`. -/
def checkFileDir (field : String) (v : Option String) : List String :=
  match v with
  | none => [issue field "Required"]
  | some t => if t = "file" || t = "dir" then [] else [issue field "Invalid enum value"]

/-- Validation of one move-files array element. -/
def moveItemErrors (i : Nat) (f : MoveItemRaw) : List String :=
  checkStr ("files." ++ natStr i ++ ".path") f.path 0 none none ++
  checkStr ("files." ++ natStr i ++ ".sha") f.sha 0 none none ++
  checkFileDir ("files." ++ natStr i ++ ".type") f.itemType

/-- Embedding of `moveFilesSchema`: owner/repo `min(1)`, a `files` array of
`{path, sha, type}`, a required `destination` string and a branch with
default `'main'`.  None of the path-bearing fields carries a pattern or
refinement. -/
def moveFilesValidate (r : MoveFilesRaw) : List String :=
  checkStr "owner" r.owner 1 none none ++
  checkStr "repo" r.repo 1 none none ++
  (match r.files with
   | none => [issue "files" "Required"]
   | some fs => (fs.enum.map (fun p => moveItemErrors p.1 p.2)).flatten) ++
  checkStr "destination" r.destination 0 none none ++
  checkOptStr "branch" r.branch 0 none none

/-- Parsed move-files body (defaults applied). -/
structure MoveFilesParsed where
  owner : String
  repo : String
  files : List MoveItem
  destination : String
  branch : String
deriving Repr, DecidableEq

/-- Apply zod defaults/projections to a raw move-files body. -/
def moveFilesParse (r : MoveFilesRaw) : MoveFilesParsed :=
  { owner := r.owner.getD ""
    repo := r.repo.getD ""
    files := (r.files.getD []).map (fun f => ⟨f.path.getD "", f.sha.getD "", f.itemType.getD ""⟩)
    destination := r.destination.getD ""
    branch := r.branch.getD "main" }

/-- Upstream oracle for the move-files loop.  The handler only ever reads the
GET response; the PUT and DELETE outcomes are part of the environment but the
source never consults them. -/
structure MoveUpstream where
  read : String → Option GitFile
  writeStatus : String → Nat
  deleteStatus : String → Nat

/-- The move target: `destination ? destination + '/' + fileName : fileName`
with `fileName = path.split('/').pop()`. -/
def moveNewPath (destination path : String) : String :=
  let fileName := lastSeg path
  if destination = "" then fileName else destination ++ "/" ++ fileName

/-- The calls the move-files loop issues for one item: GET the content at the
old path; if that fails, `continue`; otherwise PUT to
`destination/basename(path)` and then DELETE the old path, unconditionally. -/
def moveItemCalls (owner repo destination branch : String) (up : MoveUpstream)
    (f : MoveItem) : List Call :=
  let newPath := moveNewPath destination f.path
  Call.getContents owner repo f.path branch ::
    (match up.read f.path with
     | none => []
     | some fd =>
       [Call.putContents owner repo newPath
          ⟨"Move " ++ f.path ++ " to " ++ newPath, fd.content, branch, none⟩,
        Call.deleteContents owner repo f.path ("Delete old file " ++ f.path) f.sha
          (some branch)])

/-- The move-files handler.  `schema.parse` throws on invalid input and the
outer catch maps the throw to a 500 (the body carries the ZodError message);
the profile query selects only the access token, and no ownership comparison
is made before the per-item loop. -/
def moveFilesRun (r : MoveFilesRaw) (user : Bool) (profile : Option Profile)
    (up : MoveUpstream) : Resp × List Call :=
  if moveFilesValidate r ≠ [] then
    ({ status := 500, error := some "ZodError" }, [])
  else
    let p := moveFilesParse r
    if !user then ({ status := 401, error := some "Unauthorized" }, [])
    else
      match profile with
      | none => ({ status := 401, error := some "GitHub token not found" }, [])
      | some prof =>
        if prof.github_access_token = "" then
          ({ status := 401, error := some "GitHub token not found" }, [])
        else
          ({ status := 200, success := true },
           (p.files.map (moveItemCalls p.owner p.repo p.destination p.branch up)).flatten)

/-! ## rename-file handler -/

/-- Raw rename-file request body. -/
structure RenameFileRaw where
  owner : Option String := none
  repo : Option String := none
  path : Option String := none
  new_path : Option String := none
  sha : Option String := none
  branch : Option String := none
deriving Repr, DecidableEq

/-- Embedding of `renameFileSchema`: owner/repo/sha `min(1)`, plain strings
for `path` and `new_path` (no pattern, no traversal refinement), branch with
default `'main'`. -/
def renameFileValidate (r : RenameFileRaw) : List String :=
  checkStr "owner" r.owner 1 none none ++
  checkStr "repo" r.repo 1 none none ++
  checkStr "path" r.path 0 none none ++
  checkStr "new_path" r.new_path 0 none none ++
  checkStr "sha" r.sha 1 none none ++
  checkOptStr "branch" r.branch 0 none none

/-- Parsed rename-file body. -/
structure RenameFileParsed where
  owner : String
  repo : String
  path : String
  new_path : String
  sha : String
  branch : String
deriving Repr, DecidableEq

/-- Apply zod defaults to a raw rename-file body. -/
def renameFileParse (r : RenameFileRaw) : RenameFileParsed :=
  { owner := r.owner.getD ""
    repo := r.repo.getD ""
    path := r.path.getD ""
    new_path := r.new_path.getD ""
    sha := r.sha.getD ""
    branch := r.branch.getD "main" }

/-- Upstream oracle for rename-file: the GET, PUT and DELETE responses. -/
structure RenameFileUpstream where
  getStatus : Nat
  getFile : GitFile
  putStatus : Nat
  deleteStatus : Nat

/-- The rename-file handler: parse (throw maps to 500), auth (401), token
(401), then GET old path, PUT new path with the read content, DELETE old
path with the supplied sha; a GET or PUT failure aborts with the upstream
status, a DELETE failure is only logged.  No ownership comparison is made. -/
def renameFileRun (r : RenameFileRaw) (user : Bool) (profile : Option Profile)
    (up : RenameFileUpstream) : Resp × List Call :=
  if renameFileValidate r ≠ [] then
    ({ status := 500, error := some "ZodError" }, [])
  else
    let p := renameFileParse r
    if !user then ({ status := 401, error := some "Unauthorized" }, [])
    else
      match profile with
      | none => ({ status := 401, error := some "GitHub token not found" }, [])
      | some prof =>
        if prof.github_access_token = "" then
          ({ status := 401, error := some "GitHub token not found" }, [])
        else
          let getCall := Call.getContents p.owner p.repo p.path p.branch
          if !httpOk up.getStatus then
            ({ status := up.getStatus, error := some "Failed to get file content" }, [getCall])
          else
            let putCall := Call.putContents p.owner p.repo p.new_path
              ⟨"Rename " ++ p.path ++ " to " ++ p.new_path, up.getFile.content, p.branch, none⟩
            if !httpOk up.putStatus then
              ({ status := up.putStatus, error := some "Failed to create file at new location" },
               [getCall, putCall])
            else
              ({ status := 200, success := true },
               [getCall, putCall,
                Call.deleteContents p.owner p.repo p.path ("Delete old file " ++ p.path)
                  p.sha (some p.branch)])

/-! ## upload-files handler (batch upload) -/

/-- A raw element of the upload-files `files` array. -/
structure UploadFileRaw where
  path : Option String := none
  content : Option String := none
deriving Repr, DecidableEq

/-- A parsed element of the upload-files `files` array. -/
structure UFile where
  path : String
  content : String
deriving Repr, DecidableEq

/-- Raw upload-files request body. -/
structure UploadFilesRaw where
  owner : Option String := none
  repo : Option String := none
  files : Option (List UploadFileRaw) := none
  message : Option String := none
  branch : Option String := none
deriving Repr, DecidableEq

/-- Validation of one upload-files array element: `path` is
`min(1).max(4096).refine(pathSafe)`, `content` is `max(10485760)`. -/
def uploadItemErrors (i : Nat) (f : UploadFileRaw) : List String :=
  checkStrRefine ("files." ++ natStr i ++ ".path") f.path 1 (some 4096)
    pathSafe "Path traversal not allowed" ++
  checkStr ("files." ++ natStr i ++ ".content") f.content 0 (some 10485760) none

/-- Embedding of `uploadFilesSchema`. -/
def uploadFilesValidate (r : UploadFilesRaw) : List String :=
  checkStr "owner" r.owner 1 (some 39) (some (matchesPlus ownerChar, "Invalid owner name")) ++
  checkStr "repo" r.repo 1 (some 100) (some (matchesPlus repoChar, "Invalid repo name")) ++
  (match r.files with
   | none => [issue "files" "Required"]
   | some fs =>
     (if fs.length < 1 then [issue "files" "Array must contain at least "] else []) ++
     (if 100 < fs.length then [issue "files" "Array must contain at most "] else []) ++
     (fs.enum.map (fun p => uploadItemErrors p.1 p.2)).flatten) ++
  checkOptStr "message" r.message 1 (some 500) none ++
  checkOptStr "branch" r.branch 1 (some 255) (some (matchesPlus branchChar, "Invalid branch name"))

/-- Parsed upload-files body (optional fields stay optional). -/
structure UploadFilesParsed where
  owner : String
  repo : String
  files : List UFile
  message : Option String
  branch : Option String
deriving Repr, DecidableEq

/-- Apply zod projections to a raw upload-files body. -/
def uploadFilesParse (r : UploadFilesRaw) : UploadFilesParsed :=
  { owner := r.owner.getD ""
    repo := r.repo.getD ""
    files := (r.files.getD []).map (fun f => ⟨f.path.getD "", f.content.getD ""⟩)
    message := r.message
    branch := r.branch }

/-- Upstream oracle for upload-files: the PUT status and error text, keyed by
target path. -/
structure UploadUpstream where
  putStatus : String → Nat
  putErrText : String → String

/-- The JSON body of one upload-files PUT: message (shared, or derived per
file), raw content, branch (default `'main'`).  No probe is made and no sha
is ever sent. -/
def uploadPutBody (message branch : Option String) (f : UFile) : PutBody :=
  ⟨jsOr message ("Upload " ++ f.path), f.content, jsOr branch "main", none⟩

/-- The per-file entry of the `results` array. -/
def uploadResultOf (up : UploadUpstream) (f : UFile) : UploadResult :=
  if httpOk (up.putStatus f.path) then ⟨f.path, true, none⟩
  else ⟨f.path, false, some (up.putErrText f.path)⟩

/-- The upload-files handler: safeParse (400 with a details array), auth
(401), profile with token and username (403), ownership gate (403), then one
PUT per file dispatched via `Promise.all` — all files are attempted, per-file
failures are recorded in `results`, and the summary counts
total/successful/failed. -/
def uploadFilesRun (r : UploadFilesRaw) (user : Bool) (profile : Option Profile)
    (up : UploadUpstream) : Resp × List Call :=
  let errs := uploadFilesValidate r
  if errs ≠ [] then
    ({ status := 400, error := some "Invalid input", details := some errs }, [])
  else
    let p := uploadFilesParse r
    if !user then ({ status := 401, error := some "Unauthorized" }, [])
    else
      match profile with
      | none => ({ status := 403, error := some "GitHub profile not found" }, [])
      | some prof =>
        if prof.github_access_token = "" || prof.github_username = "" then
          ({ status := 403, error := some "GitHub profile not found" }, [])
        else if p.owner ≠ prof.github_username then
          ({ status := 403, error := some "Unauthorized: can only access your own repositories" },
           [])
        else
          let results := p.files.map (uploadResultOf up)
          let successCount := (results.filter (fun a => a.success)).length
          ({ status := 200, success := true, results := results,
             summary := some ⟨p.files.length, successCount, p.files.length - successCount⟩ },
           p.files.map (fun f =>
             Call.putContents p.owner p.repo f.path (uploadPutBody p.message p.branch f)))

/-! ## create-file handler -/

/-- Raw create-file request body. -/
structure CreateFileRaw where
  owner : Option String := none
  repo : Option String := none
  path : Option String := none
  content : Option String := none
  message : Option String := none
  branch : Option String := none
deriving Repr, DecidableEq

/-- Embedding of `createFileSchema`. -/
def createFileValidate (r : CreateFileRaw) : List String :=
  checkStr "owner" r.owner 1 (some 39) (some (matchesPlus ownerChar, "Invalid owner name")) ++
  checkStr "repo" r.repo 1 (some 100) (some (matchesPlus repoChar, "Invalid repo name")) ++
  checkStrRefine "path" r.path 1 (some 4096) pathSafe "Path traversal not allowed" ++
  checkStr "content" r.content 0 (some 10485760) none ++
  checkOptStr "message" r.message 1 (some 500) none ++
  checkOptStr "branch" r.branch 1 (some 255) (some (matchesPlus branchChar, "Invalid branch name"))

/-- Parsed create-file body. -/
structure CreateFileParsed where
  owner : String
  repo : String
  path : String
  content : String
  message : Option String
  branch : Option String
deriving Repr, DecidableEq

/-- Apply zod projections to a raw create-file body. -/
def createFileParse (r : CreateFileRaw) : CreateFileParsed :=
  { owner := r.owner.getD ""
    repo := r.repo.getD ""
    path := r.path.getD ""
    content := r.content.getD ""
    message := r.message
    branch := r.branch }

/-- Upstream oracle for create-file. -/
structure CreateFileUpstream where
  putStatus : Nat
  putErrText : String

/-- The create-file handler.  `encode` stands for the source's
base64-at-the-wire step (`btoa` over the UTF-8 bytes of the content). -/
def createFileRun (r : CreateFileRaw) (user : Bool) (profile : Option Profile)
    (encode : String → String) (up : CreateFileUpstream) : Resp × List Call :=
  let errs := createFileValidate r
  if errs ≠ [] then
    ({ status := 400, error := some "Invalid input", details := some errs }, [])
  else
    let p := createFileParse r
    if !user then ({ status := 401, error := some "Unauthorized" }, [])
    else
      match profile with
      | none => ({ status := 403, error := some "GitHub profile not found" }, [])
      | some prof =>
        if prof.github_access_token = "" || prof.github_username = "" then
          ({ status := 403, error := some "GitHub profile not found" }, [])
        else if p.owner ≠ prof.github_username then
          ({ status := 403, error := some "Unauthorized: can only access your own repositories" },
           [])
        else
          let call := Call.putContents p.owner p.repo p.path
            ⟨jsOr p.message ("Create " ++ p.path), encode p.content, jsOr p.branch "main", none⟩
          if httpOk up.putStatus then
            ({ status := 200, success := true }, [call])
          else if up.putStatus = 422 then
            ({ status := 422, error := some "File already exists" }, [call])
          else
            ({ status := up.putStatus, error := some "Failed to create file",
               detailStr := some up.putErrText }, [call])

/-! ## delete-file handler (file and directory deletion) -/

/-- Raw delete-file request body (`objType` embeds the JSON field `type`). -/
structure DeleteFileRaw where
  owner : Option String := none
  repo : Option String := none
  path : Option String := none
  sha : Option String := none
  branch : Option String := none
  objType : Option String := none
deriving Repr, DecidableEq

/-- Embedding of `deleteFileSchema`: owner/repo patterns, path traversal
refinement, sha `min(1).max(100)`, optional branch `min(1).max(255)` (no
pattern), optional `type` enum. -/
def deleteFileValidate (r : DeleteFileRaw) : List String :=
  checkStr "owner" r.owner 1 (some 39) (some (matchesPlus ownerChar, "Invalid owner name")) ++
  checkStr "repo" r.repo 1 (some 100) (some (matchesPlus repoChar, "Invalid repo name")) ++
  checkStrRefine "path" r.path 1 (some 4096) pathSafe "Path traversal not allowed" ++
  checkStr "sha" r.sha 1 (some 100) none ++
  checkOptStr "branch" r.branch 1 (some 255) none ++
  (match r.objType with
   | none => []
   | some t => if t = "file" || t = "dir" then [] else [issue "type" "Invalid enum value"])

/-- Parsed delete-file body. -/
structure DeleteFileParsed where
  owner : String
  repo : String
  path : String
  sha : String
  branch : Option String
  objType : Option String
deriving Repr, DecidableEq

/-- Apply zod projections to a raw delete-file body. -/
def deleteFileParse (r : DeleteFileRaw) : DeleteFileParsed :=
  { owner := r.owner.getD ""
    repo := r.repo.getD ""
    path := r.path.getD ""
    sha := r.sha.getD ""
    branch := r.branch
    objType := r.objType }

/-- Upstream oracle for delete-file: the six git-data steps of the directory
branch and the single contents DELETE of the file branch. -/
structure DeleteUpstream where
  refStatus : Nat
  refSha : String
  commitStatus : Nat
  commitTreeSha : String
  treeStatus : Nat
  tree : List TreeEntry
  newTreeStatus : Nat
  newTreeSha : String
  newCommitStatus : Nat
  newCommitSha : String
  patchStatus : Nat
  deleteStatus : Nat

/-- The tree filter of the directory branch: drop every entry whose path
starts with `path` normalized to end in a slash, and the entry equal to
`path` itself (source lines 136-138 of delete-file). -/
def dirDeleteKeep (path entryPath : String) : Bool :=
  let pfxStr := if jsEnds path "/" then path else path ++ "/"
  !(jsStarts entryPath pfxStr) && entryPath ≠ path

/-- The new tree posted by the directory branch: the kept entries, projected
onto the four fields path/mode/type/sha. -/
def dirDeleteNewTree (path : String) (tree : List TreeEntry) : List TreeEntry :=
  (tree.filter (fun item => dirDeleteKeep path item.path)).map
    (fun item => ⟨item.path, item.mode, item.entryType, item.sha⟩)

/-- The retained-entry characterization as the specification words it: path
neither equal to the target directory path nor prefixed by it plus `'/'`.
Stated from the spec text, for comparison with `dirDeleteKeep`. -/
def specDirKeep (target entryPath : String) : Bool :=
  entryPath ≠ target && !(jsStarts entryPath (target ++ "/"))

/-- The delete-file handler.  For `type = 'dir'` it runs the tree-rewrite
pipeline: get ref, get commit, get recursive tree, post the filtered tree,
post a commit with the old tip as sole parent, patch the branch ref; each
step's failure aborts with the upstream status.  Otherwise it issues a single
contents DELETE whose body carries the branch only when the request supplied
a truthy one. -/
def deleteFileRun (r : DeleteFileRaw) (profile : Option Profile)
    (up : DeleteUpstream) : Resp × List Call :=
  let errs := deleteFileValidate r
  if errs ≠ [] then
    ({ status := 400, error := some "Invalid input", details := some errs }, [])
  else
    let p := deleteFileParse r
    match profile with
    | none => ({ status := 401, error := some "Unauthorized" }, [])
    | some prof =>
      if p.owner ≠ prof.github_username then
        ({ status := 403, error := some "Unauthorized: can only access your own repositories" },
         [])
      else
        let branchName := jsOr p.branch "main"
        if p.objType = some "dir" then
          let refCall := Call.getRef p.owner p.repo branchName
          if !httpOk up.refStatus then
            ({ status := up.refStatus, error := some "Failed to get branch reference" }, [refCall])
          else
            let commitCall := Call.getCommit p.owner p.repo up.refSha
            if !httpOk up.commitStatus then
              ({ status := up.commitStatus, error := some "Failed to get commit" },
               [refCall, commitCall])
            else
              let treeCall := Call.getTreeRecursive p.owner p.repo up.commitTreeSha
              if !httpOk up.treeStatus then
                ({ status := up.treeStatus, error := some "Failed to get tree" },
                 [refCall, commitCall, treeCall])
              else
                let newTree := dirDeleteNewTree p.path up.tree
                let postTreeCall := Call.postTree p.owner p.repo newTree
                if !httpOk up.newTreeStatus then
                  ({ status := up.newTreeStatus, error := some "Failed to create new tree" },
                   [refCall, commitCall, treeCall, postTreeCall])
                else
                  let postCommitCall := Call.postCommit p.owner p.repo
                    ("Delete directory " ++ p.path) up.newTreeSha [up.refSha]
                  if !httpOk up.newCommitStatus then
                    ({ status := up.newCommitStatus, error := some "Failed to create commit" },
                     [refCall, commitCall, treeCall, postTreeCall, postCommitCall])
                  else
                    let patchCall := Call.patchRef p.owner p.repo branchName up.newCommitSha
                    if !httpOk up.patchStatus then
                      ({ status := up.patchStatus, error := some "Failed to update branch" },
                       [refCall, commitCall, treeCall, postTreeCall, postCommitCall, patchCall])
                    else
                      ({ status := 200, success := true },
                       [refCall, commitCall, treeCall, postTreeCall, postCommitCall, patchCall])
        else
          let delCall := Call.deleteContents p.owner p.repo p.path ("Delete " ++ p.path) p.sha
            (if jsTruthy p.branch then p.branch else none)
          if !httpOk up.deleteStatus then
            ({ status := up.deleteStatus, error := some "Failed to delete file on GitHub" },
             [delCall])
          else
            ({ status := 200, success := true }, [delCall])

/-! ## sync-repo-contents handler -/

/-- Raw sync request body. -/
structure SyncRaw where
  sourceRepo : Option String := none
  destRepo : Option String := none
  sourceBranch : Option String := none
  destBranch : Option String := none
deriving Repr, DecidableEq

/-- Embedding of `syncRepoSchema`. -/
def syncValidate (r : SyncRaw) : List String :=
  checkStr "sourceRepo" r.sourceRepo 1 (some 100)
    (some (matchesPlus repoChar, "Invalid source repo name")) ++
  checkStr "destRepo" r.destRepo 1 (some 100)
    (some (matchesPlus repoChar, "Invalid dest repo name")) ++
  checkStr "sourceBranch" r.sourceBranch 1 (some 255)
    (some (matchesPlus branchChar, "Invalid source branch")) ++
  checkStr "destBranch" r.destBranch 1 (some 255)
    (some (matchesPlus branchChar, "Invalid dest branch"))

/-- Upstream oracle for the sync workflow, keyed by repo or path. -/
structure SyncUpstream where
  repoStatus : String → Nat
  repoOwnerLogin : String → String
  branchOk : Bool
  branchErr : String
  treeStatus : Nat
  tree : List TreeEntry
  readFile : String → Option GitFile
  probeDest : String → Option GitFile
  uploadStatus : String → Nat

/-- The per-invocation file cap of the sync loop. -/
def MAX_FILES : Nat := 100

/-- The `validateRepo` closure: `none` on success, otherwise the thrown
message (not found, or owned by someone else). -/
def syncRepoCheck (up : SyncUpstream) (owner repo : String) : Option String :=
  if !httpOk (up.repoStatus repo) then
    some ("Repository " ++ repo ++ " not found or not accessible")
  else if up.repoOwnerLogin repo ≠ owner then
    some ("Repository " ++ repo ++ " does not belong to user " ++ owner)
  else none

/-- The sha argument of a sync PUT, from the destination probe:
`...(fileExists && existingFile?.sha ? { sha: existingFile.sha } : {})` —
present only when the probe succeeded and its sha is truthy. -/
def syncShaArg : Option GitFile → Option String
  | some ex => if ex.sha = "" then none else some ex.sha
  | none => none

/-- The calls of one iteration of the sync loop: GET the source blob; if that
fails the iteration is a silent no-op, otherwise probe the destination path
and PUT the content there with the probe-derived sha argument. -/
def syncFileCalls (up : SyncUpstream) (owner srcRepo destRepo srcBranch destBranch : String)
    (f : TreeEntry) : List Call :=
  Call.getContents owner srcRepo f.path srcBranch ::
    (match up.readFile f.path with
     | none => []
     | some fd =>
       [Call.getContents owner destRepo f.path destBranch,
        Call.putContents owner destRepo f.path
          ⟨"Sync: Merged " ++ f.path ++ " from " ++ srcRepo ++ ":" ++ srcBranch,
           fd.content, destBranch, syncShaArg (up.probeDest f.path)⟩])

/-- Whether one sync iteration increments `syncedCount`: the source read and
the destination write both succeeded. -/
def syncFileOk (up : SyncUpstream) (f : TreeEntry) : Bool :=
  (up.readFile f.path).isSome && httpOk (up.uploadStatus f.path)

/-- The sync-repo-contents handler: safeParse (400 with details), credential
(401), both repos exist and belong to the caller (403 with the thrown
message), destination branch create-or-get (400 on failure), recursive
source tree (401 passthrough or throw mapping to 500), then the capped
per-blob loop and the aggregate response. -/
def syncRun (r : SyncRaw) (profile : Option Profile) (up : SyncUpstream) :
    Resp × List Call :=
  let errs := syncValidate r
  if errs ≠ [] then
    ({ status := 400, error := some "Invalid input", details := some errs }, [])
  else
    match profile with
    | none =>
      ({ status := 401,
         error := some "Your GitHub token is invalid or has expired. Please log out and log back in." },
       [])
    | some prof =>
      let owner := prof.github_username
      let sourceRepo := r.sourceRepo.getD ""
      let destRepo := r.destRepo.getD ""
      let sourceBranch := r.sourceBranch.getD ""
      let destBranch := r.destBranch.getD ""
      match syncRepoCheck up owner sourceRepo with
      | some msg => ({ status := 403, error := some msg }, [Call.getRepo owner sourceRepo])
      | none =>
        match syncRepoCheck up owner destRepo with
        | some msg =>
          ({ status := 403, error := some msg },
           [Call.getRepo owner sourceRepo, Call.getRepo owner destRepo])
        | none =>
          let prelude := [Call.getRepo owner sourceRepo, Call.getRepo owner destRepo,
            Call.ensureBranch owner destRepo destBranch]
          if !up.branchOk then
            ({ status := 400,
               error := some ("Failed to create/access destination branch: " ++ up.branchErr) },
             prelude)
          else
            let treeCall := Call.getTreeRecursive owner sourceRepo sourceBranch
            if !httpOk up.treeStatus then
              if up.treeStatus = 401 then
                ({ status := 401,
                   error := some "Your GitHub token is invalid or has expired. Please log out and log back in." },
                 prelude ++ [treeCall])
              else
                ({ status := 500,
                   error := some "Failed to fetch source repository tree. Please verify the branch exists." },
                 prelude ++ [treeCall])
            else
              let files := up.tree.filter (fun item => item.entryType = "blob")
              let attempted := files.take MAX_FILES
              let syncedCount := (attempted.filter (syncFileOk up)).length
              ({ status := 200, success := true, files_synced := some syncedCount,
                 total_files := some files.length },
               prelude ++ [treeCall] ++
                 (attempted.map
                   (syncFileCalls up owner sourceRepo destRepo sourceBranch destBranch)).flatten)

/-! ## rename-repo, update-repo and star-repo handlers -/

/-- Raw rename-repo request body. -/
structure RenameRepoRaw where
  owner : Option String := none
  repo : Option String := none
  new_name : Option String := none
deriving Repr, DecidableEq

/-- Embedding of `renameRepoSchema` (three `min(1)` strings). -/
def renameRepoValidate (r : RenameRepoRaw) : List String :=
  checkStr "owner" r.owner 1 none none ++
  checkStr "repo" r.repo 1 none none ++
  checkStr "new_name" r.new_name 1 none none

/-- Upstream oracle for rename-repo. -/
structure RenameRepoUpstream where
  patchStatus : Nat
  resultName : String

/-- The rename-repo handler: `schema.parse` throws to the catch-all 500;
then auth (401), token (401), the ownership gate (403), and a single PATCH
of the repo with the new name. -/
def renameRepoRun (r : RenameRepoRaw) (user : Bool) (profile : Option Profile)
    (up : RenameRepoUpstream) : Resp × List Call :=
  if renameRepoValidate r ≠ [] then
    ({ status := 500, error := some "ZodError" }, [])
  else
    let owner := r.owner.getD ""
    let repo := r.repo.getD ""
    let newName := r.new_name.getD ""
    if !user then ({ status := 401, error := some "Unauthorized" }, [])
    else
      match profile with
      | none => ({ status := 401, error := some "GitHub token not found" }, [])
      | some prof =>
        if prof.github_access_token = "" then
          ({ status := 401, error := some "GitHub token not found" }, [])
        else if prof.github_username ≠ owner then
          ({ status := 403, error := some "You can only rename your own repositories" }, [])
        else
          let call := Call.patchRepo owner repo (some newName)
          if !httpOk up.patchStatus then
            ({ status := up.patchStatus, error := some "Failed to rename repository" }, [call])
          else
            ({ status := 200, success := true, new_name := some up.resultName }, [call])

/-- Raw update-repo request body. -/
structure UpdateRepoRaw where
  owner : Option String := none
  repo : Option String := none
  description : Option String := none
  homepage : Option String := none
  isPrivate : Option Bool := none
deriving Repr, DecidableEq

/-- Embedding of `updateRepoSchema`. -/
def updateRepoValidate (r : UpdateRepoRaw) : List String :=
  checkStr "owner" r.owner 1 none none ++
  checkStr "repo" r.repo 1 none none ++
  checkOptStr "description" r.description 0 (some 350) none ++
  checkOptStr "homepage" r.homepage 0 (some 255) none

/-- Upstream oracle for update-repo. -/
structure UpdateRepoUpstream where
  patchStatus : Nat

/-- The update-repo handler: `schema.parse` throws to the catch-all 500;
then auth (401), token (401), the ownership gate (403), and a single PATCH
of the repo metadata. -/
def updateRepoRun (r : UpdateRepoRaw) (user : Bool) (profile : Option Profile)
    (up : UpdateRepoUpstream) : Resp × List Call :=
  if updateRepoValidate r ≠ [] then
    ({ status := 500, error := some "ZodError" }, [])
  else
    let owner := r.owner.getD ""
    let repo := r.repo.getD ""
    if !user then ({ status := 401, error := some "Unauthorized" }, [])
    else
      match profile with
      | none => ({ status := 401, error := some "GitHub token not found" }, [])
      | some prof =>
        if prof.github_access_token = "" then
          ({ status := 401, error := some "GitHub token not found" }, [])
        else if prof.github_username ≠ owner then
          ({ status := 403, error := some "You can only update your own repositories" }, [])
        else
          let call := Call.patchRepo owner repo none
          if !httpOk up.patchStatus then
            ({ status := up.patchStatus, error := some "Failed to update repository" }, [call])
          else
            ({ status := 200 }, [call])

/-- Raw star-repo request body. -/
structure StarRepoRaw where
  owner : Option String := none
  repo : Option String := none
  starred : Option Bool := none
deriving Repr, DecidableEq

/-- Embedding of `starRepoSchema` (owner/repo `min(1)`, required boolean). -/
def starRepoValidate (r : StarRepoRaw) : List String :=
  checkStr "owner" r.owner 1 none none ++
  checkStr "repo" r.repo 1 none none ++
  (match r.starred with
   | none => [issue "starred" "Required"]
   | some _ => [])

/-- Upstream oracle for star-repo. -/
structure StarRepoUpstream where
  starStatus : Nat

/-- The star-repo handler: `schema.parse` throws to the catch-all 500; then
auth (401), token (401) — no ownership gate — and a PUT or DELETE on the
starring endpoint. -/
def starRepoRun (r : StarRepoRaw) (user : Bool) (profile : Option Profile)
    (up : StarRepoUpstream) : Resp × List Call :=
  if starRepoValidate r ≠ [] then
    ({ status := 500, error := some "ZodError" }, [])
  else
    let owner := r.owner.getD ""
    let repo := r.repo.getD ""
    let starred := r.starred.getD false
    if !user then ({ status := 401, error := some "Unauthorized" }, [])
    else
      match profile with
      | none => ({ status := 401, error := some "GitHub token not found" }, [])
      | some prof =>
        if prof.github_access_token = "" then
          ({ status := 401, error := some "GitHub token not found" }, [])
        else
          let call := if starred then Call.putStar owner repo else Call.deleteStar owner repo
          if !httpOk up.starStatus && up.starStatus ≠ 204 then
            ({ status := up.starStatus, error := some "Failed to update star status" }, [call])
          else
            ({ status := 200, success := true, starredOut := some starred }, [call])

/-! ## Concrete fixtures for witnesses and counterexamples -/

/-- A profile fixture: caller `alice` with a stored token. -/
def profAlice : Profile := ⟨"tok", "alice"⟩

/-- Move upstream fixture: every read succeeds, every write fails. -/
def upMoveWriteFail : MoveUpstream :=
  { read := fun _ => some ⟨"C", "S"⟩, writeStatus := fun _ => 500, deleteStatus := fun _ => 200 }

/-- Move upstream fixture: every read and write succeeds. -/
def upMoveOk : MoveUpstream :=
  { read := fun _ => some ⟨"C", "S"⟩, writeStatus := fun _ => 201, deleteStatus := fun _ => 200 }

/-- A well-formed single-item move body naming `mallory` as owner. -/
def rawMoveMallory : MoveFilesRaw :=
  { owner := some "mallory", repo := some "r",
    files := some [{ path := some "x/f.txt", sha := some "s1", itemType := some "file" }],
    destination := some "y", branch := none }

/-- A well-formed rename-file body naming `mallory` as owner, with a
traversal `new_path`. -/
def rawRenameMallory : RenameFileRaw :=
  { owner := some "mallory", repo := some "r", path := some "a.txt",
    new_path := some "../evil.txt", sha := some "s", branch := none }

/-- Rename-file upstream fixture: read, write and delete all succeed. -/
def upRenameOk : RenameFileUpstream := ⟨200, ⟨"C", "S"⟩, 201, 200⟩

/-- A well-formed move body whose destination contains a traversal
segment. -/
def rawMoveDotDot : MoveFilesRaw :=
  { owner := some "alice", repo := some "r",
    files := some [{ path := some "x/f.txt", sha := some "s1", itemType := some "file" }],
    destination := some "..", branch := none }

/-- A well-formed single-item move body owned by the caller. -/
def rawMoveAlice : MoveFilesRaw :=
  { owner := some "alice", repo := some "r",
    files := some [{ path := some "x/f.txt", sha := some "s1", itemType := some "file" }],
    destination := some "y", branch := none }

/-- Move upstream fixture: every read fails. -/
def upMoveReadFail : MoveUpstream :=
  { read := fun _ => none, writeStatus := fun _ => 200, deleteStatus := fun _ => 200 }

/-- A well-formed create-file body naming `mallory` as owner. -/
def rawCreateMallory : CreateFileRaw :=
  { owner := some "mallory", repo := some "r", path := some "a.txt", content := some "x" }

/-- A well-formed upload body naming `mallory` as owner. -/
def rawUploadMallory : UploadFilesRaw :=
  { owner := some "mallory", repo := some "r",
    files := some [{ path := some "a.txt", content := some "A" }] }

/-- A well-formed delete-file body naming `mallory` as owner. -/
def rawDeleteMallory : DeleteFileRaw :=
  { owner := some "mallory", repo := some "r", path := some "a.txt", sha := some "s",
    objType := some "file" }

/-- A well-formed rename-repo body naming `mallory` as owner. -/
def rawRenameRepoMallory : RenameRepoRaw :=
  { owner := some "mallory", repo := some "r", new_name := some "r2" }

/-- A well-formed update-repo body naming `mallory` as owner. -/
def rawUpdateRepoMallory : UpdateRepoRaw := { owner := some "mallory", repo := some "r" }

/-- A rename-repo body missing the required `new_name` field. -/
def rawRenameRepoInvalid : RenameRepoRaw := { owner := some "alice", repo := some "r" }

/-- Trivial upstream fixtures (all calls succeed). -/
def upCreate0 : CreateFileUpstream := ⟨201, ""⟩

/-- Trivial rename-repo upstream. -/
def upRenameRepo0 : RenameRepoUpstream := ⟨200, "r2"⟩

/-- Trivial update-repo upstream. -/
def upUpdateRepo0 : UpdateRepoUpstream := ⟨200⟩

/-- Trivial star-repo upstream. -/
def upStar0 : StarRepoUpstream := ⟨204⟩

/-- Trivial upload upstream. -/
def upUpload0 : UploadUpstream := ⟨fun _ => 201, fun _ => ""⟩

/-- Trivial delete-file upstream over the specification's four-entry example
tree. -/
def upDeleteExample : DeleteUpstream :=
  { refStatus := 200, refSha := "tip", commitStatus := 200, commitTreeSha := "t0",
    treeStatus := 200,
    tree := [⟨"a", "040000", "tree", "s1"⟩, ⟨"a/b.txt", "100644", "blob", "s2"⟩,
             ⟨"a/c/d.txt", "100644", "blob", "s3"⟩, ⟨"e.txt", "100644", "blob", "s4"⟩],
    newTreeStatus := 201, newTreeSha := "nt", newCommitStatus := 201, newCommitSha := "nc",
    patchStatus := 200, deleteStatus := 200 }

/-- A delete-directory body for target `a` over the example tree. -/
def rawDeleteDirA : DeleteFileRaw :=
  { owner := some "alice", repo := some "r", path := some "a", sha := some "s1",
    objType := some "dir" }

/-- A delete-directory body whose target path ends in a slash. -/
def rawDeleteSlashDir : DeleteFileRaw :=
  { owner := some "alice", repo := some "r", path := some "a/", sha := some "s1",
    objType := some "dir" }

/-- Delete upstream whose tree holds a single blob nested under `a`. -/
def upDeleteSlash : DeleteUpstream :=
  { refStatus := 200, refSha := "tip", commitStatus := 200, commitTreeSha := "t0",
    treeStatus := 200, tree := [⟨"a/b.txt", "100644", "blob", "s2"⟩],
    newTreeStatus := 201, newTreeSha := "nt", newCommitStatus := 201, newCommitSha := "nc",
    patchStatus := 200, deleteStatus := 200 }

/-- A create-file body whose path contains a traversal segment. -/
def rawCreateDotDot : CreateFileRaw :=
  { owner := some "alice", repo := some "r", path := some "../x", content := some "c" }

/-- A delete-file body whose path contains a traversal segment. -/
def rawDeleteDotDot : DeleteFileRaw :=
  { owner := some "alice", repo := some "r", path := some "../x", sha := some "s" }

/-- An upload body whose single file path contains a traversal segment. -/
def rawUploadDotDot : UploadFilesRaw :=
  { owner := some "alice", repo := some "r",
    files := some [{ path := some "../x", content := some "c" }] }

/-- A two-file upload body owned by the caller. -/
def rawUploadAB : UploadFilesRaw :=
  { owner := some "alice", repo := some "r",
    files := some [{ path := some "a.txt", content := some "A" },
                   { path := some "b.txt", content := some "B" }] }

/-- Upload upstream where exactly the write of `b.txt` fails. -/
def upUploadBfail : UploadUpstream :=
  ⟨fun p => if p = "b.txt" then 500 else 201, fun _ => "err"⟩

/-- A well-formed sync body. -/
def rawSync : SyncRaw :=
  { sourceRepo := some "src", destRepo := some "dst",
    sourceBranch := some "main", destBranch := some "dev" }

/-- Sync upstream where the destination probe finds a file whose JSON sha is
the empty string. -/
def upSyncEmptySha : SyncUpstream :=
  { repoStatus := fun _ => 200, repoOwnerLogin := fun _ => "alice", branchOk := true,
    branchErr := "", treeStatus := 200, tree := [⟨"f.txt", "100644", "blob", "s1"⟩],
    readFile := fun _ => some ⟨"C", "S"⟩, probeDest := fun _ => some ⟨"old", ""⟩,
    uploadStatus := fun _ => 200 }

/-- Sync upstream where the destination probe finds a file with a normal
sha. -/
def upSyncFound : SyncUpstream :=
  { repoStatus := fun _ => 200, repoOwnerLogin := fun _ => "alice", branchOk := true,
    branchErr := "", treeStatus := 200, tree := [⟨"f.txt", "100644", "blob", "s1"⟩],
    readFile := fun _ => some ⟨"C", "S"⟩, probeDest := fun _ => some ⟨"old", "dsha"⟩,
    uploadStatus := fun _ => 200 }

/-- A source tree with 101 blobs and one tree entry, to exercise the
100-file cap. -/
def bigTree : List TreeEntry :=
  (List.range 101).map (fun i => ⟨"f" ++ natStr i, "100644", "blob", "s"⟩) ++
    [⟨"d", "040000", "tree", "s"⟩]

/-- Sync upstream over `bigTree` where every read and write succeeds and no
destination file exists. -/
def upSyncBig : SyncUpstream :=
  { repoStatus := fun _ => 200, repoOwnerLogin := fun _ => "alice", branchOk := true,
    branchErr := "", treeStatus := 200, tree := bigTree,
    readFile := fun _ => some ⟨"C", "S"⟩, probeDest := fun _ => none,
    uploadStatus := fun _ => 200 }

end RepoPush

namespace RepoPush

/-! ## Helper lemmas -/

/-- Projecting a tree entry onto its four fields is the identity. -/
theorem treeEntry_proj_map (l : List TreeEntry) :
    l.map (fun item => (⟨item.path, item.mode, item.entryType, item.sha⟩ : TreeEntry)) = l := by
  induction l with
  | nil => rfl
  | cons a t ih => simp [ih]

/-- The splitter never returns an empty list of segments. -/
theorem splitChAux_ne_nil (c : Char) (l acc : List Char) : splitChAux c l acc ≠ [] := by
  induction l generalizing acc with
  | nil => simp [splitChAux]
  | cons x xs ih =>
    by_cases h : x == c
    · simp [splitChAux, h]
    · simp [splitChAux, h, ih]

/-- The default argument of `getLastD` is irrelevant on a nonempty list. -/
theorem getLastD_of_ne_nil {α : Type} {l : List α} (h : l ≠ []) (d e : α) :
    l.getLastD d = l.getLastD e := by
  cases l with
  | nil => exact absurd rfl h
  | cons a t => rw [List.getLastD_cons, List.getLastD_cons]

/-- On a segment free of the separator, the last split piece is the
accumulator followed by the segment. -/
theorem getLastD_splitChAux_no_sep (c : Char) (r : List Char)
    (h : r.all (fun x => !(x == c)) = true) (acc : List Char) :
    (splitChAux c r acc).getLastD [] = acc.reverse ++ r := by
  induction r generalizing acc with
  | nil => simp [splitChAux]
  | cons x xs ih =>
    simp only [List.all_cons, Bool.and_eq_true] at h
    have hx : (x == c) = false := by
      cases hxc : x == c with
      | false => rfl
      | true => simp [hxc] at h
    simp only [splitChAux, hx, Bool.false_eq_true, if_false]
    rw [ih h.2]
    simp

/-- Splitting restarts after each separator: the last piece of
`l ++ c :: r` is the last piece of `r`. -/
theorem getLastD_splitChAux_sep (c : Char) (l : List Char) :
    ∀ acc r, (splitChAux c (l ++ c :: r) acc).getLastD [] =
      (splitChAux c r []).getLastD [] := by
  induction l with
  | nil =>
    intro acc r
    simp only [List.nil_append, splitChAux, beq_self_eq_true, if_true, List.getLastD_cons]
    exact getLastD_of_ne_nil (splitChAux_ne_nil c r []) _ _
  | cons x xs ih =>
    intro acc r
    by_cases h : x == c
    · have hx : x = c := eq_of_beq h
      simp only [List.cons_append, splitChAux, hx, beq_self_eq_true, if_true,
        List.getLastD_cons]
      exact (getLastD_of_ne_nil (splitChAux_ne_nil c (xs ++ c :: r) []) acc.reverse []).trans
        (ih [] r)
    · simp only [List.cons_append, splitChAux, h, if_false]
      exact ih _ r

/-- JS `split('/')`-then-`pop`: the basename of `x ++ "/" ++ base` is `base`
whenever `base` contains no slash. -/
theorem lastSeg_append (x base : String)
    (h : base.data.all (fun c => !(c == '/')) = true) :
    lastSeg (x ++ "/" ++ base) = base := by
  have hdata : (x ++ "/" ++ base).data = x.data ++ '/' :: base.data := by
    rw [String.data_append, String.data_append, List.append_assoc]
    rfl
  unfold lastSeg splitCh
  rw [hdata, getLastD_splitChAux_sep '/' x.data []]
  rw [getLastD_splitChAux_no_sep '/' base.data h []]
  cases base with
  | mk bd => rfl

/-- Partition of a list's length by a Boolean predicate. -/
theorem length_filter_add_length_filter_not {α : Type} (l : List α) (p : α → Bool) :
    (l.filter p).length + (l.filter (fun a => !(p a))).length = l.length := by
  induction l with
  | nil => rfl
  | cons a t ih =>
    cases hp : p a with
    | true =>
      simp only [List.filter_cons, hp, Bool.not_true, if_true, Bool.false_eq_true, if_false,
        List.length_cons]
      omega
    | false =>
      simp only [List.filter_cons, hp, Bool.not_false, if_true, Bool.false_eq_true, if_false,
        List.length_cons]
      omega

/-- Trace of the move-files handler on the happy authentication path: the
in-order concatenation of the per-item call lists. -/
theorem moveFilesRun_trace (r : MoveFilesRaw) (prof : Profile) (up : MoveUpstream)
    (hv : moveFilesValidate r = []) (ht : prof.github_access_token ≠ "") :
    moveFilesRun r true (some prof) up =
      ({ status := 200, success := true },
       ((moveFilesParse r).files.map
         (moveItemCalls (moveFilesParse r).owner (moveFilesParse r).repo
           (moveFilesParse r).destination (moveFilesParse r).branch up)).flatten) := by
  simp [moveFilesRun, hv, ht]

/-- Invalid input short-circuits create-file before any call. -/
theorem createFileRun_invalid (r : CreateFileRaw) (user : Bool) (profile : Option Profile)
    (enc : String → String) (up : CreateFileUpstream) (h : createFileValidate r ≠ []) :
    createFileRun r user profile enc up =
      ({ status := 400, error := some "Invalid input",
         details := some (createFileValidate r) }, []) := by
  simp [createFileRun, h]

/-- Invalid input short-circuits upload-files before any call. -/
theorem uploadFilesRun_invalid (r : UploadFilesRaw) (user : Bool) (profile : Option Profile)
    (up : UploadUpstream) (h : uploadFilesValidate r ≠ []) :
    uploadFilesRun r user profile up =
      ({ status := 400, error := some "Invalid input",
         details := some (uploadFilesValidate r) }, []) := by
  simp [uploadFilesRun, h]

/-- Invalid input short-circuits delete-file before any call. -/
theorem deleteFileRun_invalid (r : DeleteFileRaw) (profile : Option Profile)
    (up : DeleteUpstream) (h : deleteFileValidate r ≠ []) :
    deleteFileRun r profile up =
      ({ status := 400, error := some "Invalid input",
         details := some (deleteFileValidate r) }, []) := by
  simp [deleteFileRun, h]

/-- Invalid input short-circuits sync before any call. -/
theorem syncRun_invalid (r : SyncRaw) (profile : Option Profile) (up : SyncUpstream)
    (h : syncValidate r ≠ []) :
    syncRun r profile up =
      ({ status := 400, error := some "Invalid input", details := some (syncValidate r) },
       []) := by
  simp [syncRun, h]

/-- Invalid input makes rename-repo throw into the catch-all 500, still
before any call. -/
theorem renameRepoRun_invalid (r : RenameRepoRaw) (user : Bool) (profile : Option Profile)
    (up : RenameRepoUpstream) (h : renameRepoValidate r ≠ []) :
    renameRepoRun r user profile up = ({ status := 500, error := some "ZodError" }, []) := by
  simp [renameRepoRun, h]

/-- Invalid input makes update-repo throw into the catch-all 500, still
before any call. -/
theorem updateRepoRun_invalid (r : UpdateRepoRaw) (user : Bool) (profile : Option Profile)
    (up : UpdateRepoUpstream) (h : updateRepoValidate r ≠ []) :
    updateRepoRun r user profile up = ({ status := 500, error := some "ZodError" }, []) := by
  simp [updateRepoRun, h]

/-- Invalid input makes star-repo throw into the catch-all 500, still before
any call. -/
theorem starRepoRun_invalid (r : StarRepoRaw) (user : Bool) (profile : Option Profile)
    (up : StarRepoUpstream) (h : starRepoValidate r ≠ []) :
    starRepoRun r user profile up = ({ status := 500, error := some "ZodError" }, []) := by
  simp [starRepoRun, h]

/-- Invalid input makes rename-file throw into the catch-all 500, still
before any call. -/
theorem renameFileRun_invalid (r : RenameFileRaw) (user : Bool) (profile : Option Profile)
    (up : RenameFileUpstream) (h : renameFileValidate r ≠ []) :
    renameFileRun r user profile up = ({ status := 500, error := some "ZodError" }, []) := by
  simp [renameFileRun, h]

/-- Invalid input makes move-files throw into the catch-all 500, still
before any call. -/
theorem moveFilesRun_invalid (r : MoveFilesRaw) (user : Bool) (profile : Option Profile)
    (up : MoveUpstream) (h : moveFilesValidate r ≠ []) :
    moveFilesRun r user profile up = ({ status := 500, error := some "ZodError" }, []) := by
  simp [moveFilesRun, h]

/-- A string with nonempty text has a nonempty character list. -/
theorem data_ne_nil {s : String} (h : s ≠ "") : s.data ≠ [] := by
  intro hd
  apply h
  cases s
  subst hd
  rfl

/-- A nonempty string passes a bare `min(1)` check. -/
theorem checkStr_min1 (field : String) {s : String} (h : s ≠ "") :
    checkStr field (some s) 1 none none = [] := by
  have hlen : ¬ s.data.length < 1 := by
    rw [Nat.lt_one_iff, List.length_eq_zero]
    exact data_ne_nil h
  simp only [checkStr]
  rw [if_neg hlen]
  rfl

/-- A present string passes a bare `z.string()` check. -/
theorem checkStr_plain (field s : String) : checkStr field (some s) 0 none none = [] := by
  simp [checkStr]

/-- A failing refinement always leaves the field's error list nonempty. -/
theorem checkStrRefine_ne (field : String) (minL : Nat) (maxL : Option Nat)
    (f : String → Bool) (msg : String) {s : String} (hf : f s = false) :
    checkStrRefine field (some s) minL maxL f msg ≠ [] := by
  simp only [checkStrRefine]
  by_cases hb : checkStr field (some s) minL maxL none = []
  · rw [if_pos hb]
    simp [hf]
  · rw [if_neg hb]
    exact hb

/-- A traversal path makes the create-file schema fail. -/
theorem createFileValidate_ne (r : CreateFileRaw) {s : String} (hp : r.path = some s)
    (hf : pathSafe s = false) : createFileValidate r ≠ [] := by
  intro h0
  simp only [createFileValidate, hp, List.append_eq_nil] at h0
  exact checkStrRefine_ne "path" 1 (some 4096) pathSafe "Path traversal not allowed" hf
    h0.1.1.1.2

/-- A traversal path makes the delete-file schema fail. -/
theorem deleteFileValidate_ne (r : DeleteFileRaw) {s : String} (hp : r.path = some s)
    (hf : pathSafe s = false) : deleteFileValidate r ≠ [] := by
  intro h0
  simp only [deleteFileValidate, hp, List.append_eq_nil] at h0
  exact checkStrRefine_ne "path" 1 (some 4096) pathSafe "Path traversal not allowed" hf
    h0.1.1.1.2

/-- A traversal path in any array element makes the upload-files schema
fail. -/
theorem uploadFilesValidate_ne (r : UploadFilesRaw) {fs : List UploadFileRaw}
    (hfs : r.files = some fs) {i : Nat} (h : i < fs.length) {s : String}
    (hp : (fs.get ⟨i, h⟩).path = some s) (hf : pathSafe s = false) :
    uploadFilesValidate r ≠ [] := by
  intro h0
  simp only [uploadFilesValidate, hfs, List.append_eq_nil] at h0
  have hflat := h0.1.1.2.2
  rw [List.flatten_eq_nil_iff] at hflat
  have hmem : (i, fs.get ⟨i, h⟩) ∈ fs.enum := by
    have h2 : i < fs.enum.length := by simpa [List.enum_length] using h
    have h3 := List.getElem_mem h2
    rwa [List.getElem_enum] at h3
  have hin : uploadItemErrors i (fs.get ⟨i, h⟩) ∈
      fs.enum.map (fun p => uploadItemErrors p.1 p.2) :=
    List.mem_map_of_mem _ hmem
  have hz := hflat _ hin
  simp only [uploadItemErrors, hp, List.append_eq_nil] at hz
  exact checkStrRefine_ne _ 1 (some 4096) pathSafe "Path traversal not allowed" hf hz.1

/-- The rename-file happy path issues exactly GET, PUT, DELETE. -/
theorem renameFileRun_happy (r : RenameFileRaw) (prof : Profile) (up : RenameFileUpstream)
    (hv : renameFileValidate r = []) (ht : prof.github_access_token ≠ "")
    (hg : httpOk up.getStatus = true) (hp : httpOk up.putStatus = true) :
    renameFileRun r true (some prof) up =
      ({ status := 200, success := true },
       [Call.getContents (r.owner.getD "") (r.repo.getD "") (r.path.getD "")
          (r.branch.getD "main"),
        Call.putContents (r.owner.getD "") (r.repo.getD "") (r.new_path.getD "")
          ⟨"Rename " ++ r.path.getD "" ++ " to " ++ r.new_path.getD "",
           up.getFile.content, r.branch.getD "main", none⟩,
        Call.deleteContents (r.owner.getD "") (r.repo.getD "") (r.path.getD "")
          ("Delete old file " ++ r.path.getD "") (r.sha.getD "")
          (some (r.branch.getD "main"))]) := by
  simp [renameFileRun, renameFileParse, hv, ht, hg, hp]

/-- The per-file result keeps the file's path. -/
theorem uploadResultOf_path (up : UploadUpstream) (f : UFile) :
    (uploadResultOf up f).path = f.path := by
  cases h : httpOk (up.putStatus f.path) with
  | true => simp [uploadResultOf, h]
  | false => simp [uploadResultOf, h]

/-- The per-file result's success bit is exactly the write's 2xx outcome. -/
theorem uploadResultOf_success (up : UploadUpstream) (f : UFile) :
    (uploadResultOf up f).success = httpOk (up.putStatus f.path) := by
  cases h : httpOk (up.putStatus f.path) with
  | true => simp [uploadResultOf, h]
  | false => simp [uploadResultOf, h]

/-- Counting successful entries of the results array equals counting
successful writes. -/
theorem length_filter_success (up : UploadUpstream) (l : List UFile) :
    ((l.map (uploadResultOf up)).filter (fun a => a.success)).length =
      (l.filter (fun f => httpOk (up.putStatus f.path))).length := by
  induction l with
  | nil => rfl
  | cons a t ih =>
    cases h : httpOk (up.putStatus a.path) with
    | true => simp [List.filter_cons, uploadResultOf_success, h, ih]
    | false => simp [List.filter_cons, uploadResultOf_success, h, ih]

/-- A validated upload body carries between 1 and 100 files. -/
theorem uploadFilesValidate_files_bounds (r : UploadFilesRaw)
    (hv : uploadFilesValidate r = []) :
    ∃ fs, r.files = some fs ∧ 1 ≤ fs.length ∧ fs.length ≤ 100 := by
  cases hf : r.files with
  | none =>
    exfalso
    simp only [uploadFilesValidate, hf, List.append_eq_nil] at hv
    exact List.cons_ne_nil _ _ hv.1.1.2
  | some fs =>
    simp only [uploadFilesValidate, hf, List.append_eq_nil] at hv
    have g1 := hv.1.1.2.1.1
    have g2 := hv.1.1.2.1.2
    refine ⟨fs, rfl, ?_, ?_⟩
    · by_contra hlt
      rw [if_pos (by omega)] at g1
      exact List.cons_ne_nil _ _ g1
    · by_contra hgt
      rw [if_pos (by omega)] at g2
      exact List.cons_ne_nil _ _ g2

/-! ## Claim C1 -/

/-- C1, counterexample.  With the caller resolved as `alice`, a move-files
batch and a rename-file request naming owner `mallory` are both executed:
the responses are 200 and upstream calls are issued, because neither handler
compares the request's owner with the caller's `github_username`. -/
theorem claim_C1_counterexample :
    ("mallory" : String) ≠ profAlice.github_username ∧
    (moveFilesRun rawMoveMallory true (some profAlice) upMoveOk).1.status = 200 ∧
    (moveFilesRun rawMoveMallory true (some profAlice) upMoveOk).2 ≠ [] ∧
    (renameFileRun rawRenameMallory true (some profAlice) upRenameOk).1.status = 200 ∧
    (renameFileRun rawRenameMallory true (some profAlice) upRenameOk).2 ≠ [] := by
  decide

/-- C1 (amended): the create-file, upload-files, delete-file, rename-repo
and update-repo handlers respond 403 and issue zero upstream calls whenever
the request's owner differs from the caller's resolved `github_username`.
The rename-file and move-files handlers perform no ownership comparison at
all: their outcome is independent of the caller's `github_username`, and
(per the counterexample) they issue their upstream mutations for a foreign
owner. -/
theorem claim_C1 :
    (∀ (r : CreateFileRaw) (prof : Profile) (enc : String → String) (up : CreateFileUpstream),
      createFileValidate r = [] → prof.github_access_token ≠ "" →
      prof.github_username ≠ "" → r.owner.getD "" ≠ prof.github_username →
      createFileRun r true (some prof) enc up =
        ({ status := 403,
           error := some "Unauthorized: can only access your own repositories" }, [])) ∧
    (∀ (r : UploadFilesRaw) (prof : Profile) (up : UploadUpstream),
      uploadFilesValidate r = [] → prof.github_access_token ≠ "" →
      prof.github_username ≠ "" → r.owner.getD "" ≠ prof.github_username →
      uploadFilesRun r true (some prof) up =
        ({ status := 403,
           error := some "Unauthorized: can only access your own repositories" }, [])) ∧
    (∀ (r : DeleteFileRaw) (prof : Profile) (up : DeleteUpstream),
      deleteFileValidate r = [] → r.owner.getD "" ≠ prof.github_username →
      deleteFileRun r (some prof) up =
        ({ status := 403,
           error := some "Unauthorized: can only access your own repositories" }, [])) ∧
    (∀ (r : RenameRepoRaw) (prof : Profile) (up : RenameRepoUpstream),
      renameRepoValidate r = [] → prof.github_access_token ≠ "" →
      prof.github_username ≠ r.owner.getD "" →
      renameRepoRun r true (some prof) up =
        ({ status := 403, error := some "You can only rename your own repositories" }, [])) ∧
    (∀ (r : UpdateRepoRaw) (prof : Profile) (up : UpdateRepoUpstream),
      updateRepoValidate r = [] → prof.github_access_token ≠ "" →
      prof.github_username ≠ r.owner.getD "" →
      updateRepoRun r true (some prof) up =
        ({ status := 403, error := some "You can only update your own repositories" }, [])) ∧
    (∀ (r : RenameFileRaw) (user : Bool) (p1 p2 : Profile) (up : RenameFileUpstream),
      p1.github_access_token = p2.github_access_token →
      renameFileRun r user (some p1) up = renameFileRun r user (some p2) up) ∧
    (∀ (r : MoveFilesRaw) (user : Bool) (p1 p2 : Profile) (up : MoveUpstream),
      p1.github_access_token = p2.github_access_token →
      moveFilesRun r user (some p1) up = moveFilesRun r user (some p2) up) := by
  refine ⟨?_, ?_, ?_, ?_, ?_, ?_, ?_⟩
  · intro r prof enc up hv ht hu ho
    simp [createFileRun, createFileParse, hv, ht, hu, ho]
  · intro r prof up hv ht hu ho
    simp [uploadFilesRun, uploadFilesParse, hv, ht, hu, ho]
  · intro r prof up hv ho
    simp [deleteFileRun, deleteFileParse, hv, ho]
  · intro r prof up hv ht ho
    simp [renameRepoRun, hv, ht, ho]
  · intro r prof up hv ht ho
    simp [updateRepoRun, hv, ht, ho]
  · intro r user p1 p2 up h
    simp only [renameFileRun, h]
  · intro r user p1 p2 up h
    simp only [moveFilesRun, h]

/-- C1, witness: each gate clause applied at a concrete mismatching request,
and the independence clauses at two profiles sharing a token. -/
theorem claim_C1_witness :
    createFileRun rawCreateMallory true (some profAlice) (fun s => s) upCreate0 =
      ({ status := 403,
         error := some "Unauthorized: can only access your own repositories" }, []) ∧
    uploadFilesRun rawUploadMallory true (some profAlice) upUpload0 =
      ({ status := 403,
         error := some "Unauthorized: can only access your own repositories" }, []) ∧
    deleteFileRun rawDeleteMallory (some profAlice) upDeleteExample =
      ({ status := 403,
         error := some "Unauthorized: can only access your own repositories" }, []) ∧
    renameRepoRun rawRenameRepoMallory true (some profAlice) upRenameRepo0 =
      ({ status := 403, error := some "You can only rename your own repositories" }, []) ∧
    updateRepoRun rawUpdateRepoMallory true (some profAlice) upUpdateRepo0 =
      ({ status := 403, error := some "You can only update your own repositories" }, []) ∧
    renameFileRun rawRenameMallory true (some ⟨"tok", "alice"⟩) upRenameOk =
      renameFileRun rawRenameMallory true (some ⟨"tok", "bob"⟩) upRenameOk ∧
    moveFilesRun rawMoveMallory true (some ⟨"tok", "alice"⟩) upMoveOk =
      moveFilesRun rawMoveMallory true (some ⟨"tok", "bob"⟩) upMoveOk :=
  ⟨claim_C1.1 rawCreateMallory profAlice (fun s => s) upCreate0
      (by decide) (by decide) (by decide) (by decide),
   claim_C1.2.1 rawUploadMallory profAlice upUpload0
      (by decide) (by decide) (by decide) (by decide),
   claim_C1.2.2.1 rawDeleteMallory profAlice upDeleteExample (by decide) (by decide),
   claim_C1.2.2.2.1 rawRenameRepoMallory profAlice upRenameRepo0
      (by decide) (by decide) (by decide),
   claim_C1.2.2.2.2.1 rawUpdateRepoMallory profAlice upUpdateRepo0
      (by decide) (by decide) (by decide),
   claim_C1.2.2.2.2.2.1 rawRenameMallory true ⟨"tok", "alice"⟩ ⟨"tok", "bob"⟩ upRenameOk rfl,
   claim_C1.2.2.2.2.2.2 rawMoveMallory true ⟨"tok", "alice"⟩ ⟨"tok", "bob"⟩ upMoveOk rfl⟩

/-! ## Claim C3 -/

/-- C3, counterexample.  A rename-repo request missing the required
`new_name` field is rejected before any network call, but with status 500
and no details array (the `schema.parse` throw lands in the catch-all), not
with the claimed 400 plus a details array. -/
theorem claim_C3_counterexample :
    renameRepoValidate rawRenameRepoInvalid ≠ [] ∧
    renameRepoRun rawRenameRepoInvalid true (some profAlice) upRenameRepo0 =
      ({ status := 500, error := some "ZodError" }, []) := by
  decide

/-- C3 (amended): every handler rejects a body that fails its schema before
issuing any network call; the handlers that use `safeParse` (create-file,
upload-files, delete-file, sync) respond 400 with a details array naming the
offending fields, while the handlers that use `schema.parse` (rename-repo,
update-repo, star-repo, rename-file, move-files) throw into their catch-all
and respond 500 with a plain error message and no details array. -/
theorem claim_C3 :
    (∀ (r : CreateFileRaw) (user : Bool) (profile : Option Profile) (enc : String → String)
      (up : CreateFileUpstream), createFileValidate r ≠ [] →
      createFileRun r user profile enc up =
        ({ status := 400, error := some "Invalid input",
           details := some (createFileValidate r) }, [])) ∧
    (∀ (r : UploadFilesRaw) (user : Bool) (profile : Option Profile) (up : UploadUpstream),
      uploadFilesValidate r ≠ [] →
      uploadFilesRun r user profile up =
        ({ status := 400, error := some "Invalid input",
           details := some (uploadFilesValidate r) }, [])) ∧
    (∀ (r : DeleteFileRaw) (profile : Option Profile) (up : DeleteUpstream),
      deleteFileValidate r ≠ [] →
      deleteFileRun r profile up =
        ({ status := 400, error := some "Invalid input",
           details := some (deleteFileValidate r) }, [])) ∧
    (∀ (r : SyncRaw) (profile : Option Profile) (up : SyncUpstream),
      syncValidate r ≠ [] →
      syncRun r profile up =
        ({ status := 400, error := some "Invalid input",
           details := some (syncValidate r) }, [])) ∧
    (∀ (r : RenameRepoRaw) (user : Bool) (profile : Option Profile) (up : RenameRepoUpstream),
      renameRepoValidate r ≠ [] →
      renameRepoRun r user profile up = ({ status := 500, error := some "ZodError" }, [])) ∧
    (∀ (r : UpdateRepoRaw) (user : Bool) (profile : Option Profile) (up : UpdateRepoUpstream),
      updateRepoValidate r ≠ [] →
      updateRepoRun r user profile up = ({ status := 500, error := some "ZodError" }, [])) ∧
    (∀ (r : StarRepoRaw) (user : Bool) (profile : Option Profile) (up : StarRepoUpstream),
      starRepoValidate r ≠ [] →
      starRepoRun r user profile up = ({ status := 500, error := some "ZodError" }, [])) ∧
    (∀ (r : RenameFileRaw) (user : Bool) (profile : Option Profile) (up : RenameFileUpstream),
      renameFileValidate r ≠ [] →
      renameFileRun r user profile up = ({ status := 500, error := some "ZodError" }, [])) ∧
    (∀ (r : MoveFilesRaw) (user : Bool) (profile : Option Profile) (up : MoveUpstream),
      moveFilesValidate r ≠ [] →
      moveFilesRun r user profile up = ({ status := 500, error := some "ZodError" }, [])) :=
  ⟨createFileRun_invalid, uploadFilesRun_invalid, deleteFileRun_invalid, syncRun_invalid,
   renameRepoRun_invalid, updateRepoRun_invalid, starRepoRun_invalid, renameFileRun_invalid,
   moveFilesRun_invalid⟩

/-- C3, witness: all nine clauses applied to the empty (all-fields-missing)
bodies. -/
theorem claim_C3_witness :
    createFileRun {} true none (fun s => s) upCreate0 =
      ({ status := 400, error := some "Invalid input",
         details := some (createFileValidate {}) }, []) ∧
    uploadFilesRun {} true none upUpload0 =
      ({ status := 400, error := some "Invalid input",
         details := some (uploadFilesValidate {}) }, []) ∧
    deleteFileRun {} none upDeleteExample =
      ({ status := 400, error := some "Invalid input",
         details := some (deleteFileValidate {}) }, []) ∧
    syncRun {} none upSyncEmptySha =
      ({ status := 400, error := some "Invalid input",
         details := some (syncValidate {}) }, []) ∧
    renameRepoRun {} true none upRenameRepo0 = ({ status := 500, error := some "ZodError" }, []) ∧
    updateRepoRun {} true none upUpdateRepo0 = ({ status := 500, error := some "ZodError" }, []) ∧
    starRepoRun {} true none upStar0 = ({ status := 500, error := some "ZodError" }, []) ∧
    renameFileRun {} true none upRenameOk = ({ status := 500, error := some "ZodError" }, []) ∧
    moveFilesRun {} true none upMoveOk = ({ status := 500, error := some "ZodError" }, []) :=
  ⟨claim_C3.1 {} true none (fun s => s) upCreate0 (by decide),
   claim_C3.2.1 {} true none upUpload0 (by decide),
   claim_C3.2.2.1 {} none upDeleteExample (by decide),
   claim_C3.2.2.2.1 {} none upSyncEmptySha (by decide),
   claim_C3.2.2.2.2.1 {} true none upRenameRepo0 (by decide),
   claim_C3.2.2.2.2.2.1 {} true none upUpdateRepo0 (by decide),
   claim_C3.2.2.2.2.2.2.1 {} true none upStar0 (by decide),
   claim_C3.2.2.2.2.2.2.2.1 {} true none upRenameOk (by decide),
   claim_C3.2.2.2.2.2.2.2.2 {} true none upMoveOk (by decide)⟩

/-! ## Claim C4 -/

/-- C4, counterexample.  The rename-file schema accepts a `new_path`
containing `..` and the handler then PUTs to that path, so the traversal
value reaches the upstream URL; likewise the move-files schema accepts a
`..` destination and the loop PUTs to `../f.txt`. -/
theorem claim_C4_counterexample :
    pathSafe "../evil.txt" = false ∧
    renameFileValidate rawRenameMallory = [] ∧
    Call.putContents "mallory" "r" "../evil.txt"
        ⟨"Rename a.txt to ../evil.txt", "C", "main", none⟩ ∈
      (renameFileRun rawRenameMallory true (some profAlice) upRenameOk).2 ∧
    pathSafe ".." = false ∧
    moveFilesValidate rawMoveDotDot = [] ∧
    Call.putContents "alice" "r" "../f.txt"
        ⟨"Move x/f.txt to ../f.txt", "C", "main", none⟩ ∈
      (moveFilesRun rawMoveDotDot true (some profAlice) upMoveOk).2 := by
  decide

/-- C4 (amended): the path fields of create-file, delete-file and
upload-files are rejected at the validation boundary whenever they contain a
`..` segment or start with `/` — those handlers respond 400 and issue no
upstream call.  The rename-file fields `path`/`new_path` and the move-files
fields `path`/`destination` carry no such constraint: any present strings
validate, and (under a successful read) the handlers issue upstream calls
whose URL paths are those raw values. -/
theorem claim_C4 :
    (∀ (r : CreateFileRaw) (user : Bool) (profile : Option Profile) (enc : String → String)
      (up : CreateFileUpstream) (s : String),
      r.path = some s → pathSafe s = false →
      createFileRun r user profile enc up =
        ({ status := 400, error := some "Invalid input",
           details := some (createFileValidate r) }, [])) ∧
    (∀ (r : DeleteFileRaw) (profile : Option Profile) (up : DeleteUpstream) (s : String),
      r.path = some s → pathSafe s = false →
      deleteFileRun r profile up =
        ({ status := 400, error := some "Invalid input",
           details := some (deleteFileValidate r) }, [])) ∧
    (∀ (r : UploadFilesRaw) (user : Bool) (profile : Option Profile) (up : UploadUpstream)
      (fs : List UploadFileRaw) (i : Nat) (h : i < fs.length) (s : String),
      r.files = some fs → (fs.get ⟨i, h⟩).path = some s → pathSafe s = false →
      uploadFilesRun r user profile up =
        ({ status := 400, error := some "Invalid input",
           details := some (uploadFilesValidate r) }, [])) ∧
    (∀ (owner repo path new_path sha : String),
      owner ≠ "" → repo ≠ "" → sha ≠ "" →
      renameFileValidate
        { owner := some owner, repo := some repo, path := some path,
          new_path := some new_path, sha := some sha, branch := none } = []) ∧
    (∀ (owner repo destination : String) (items : List MoveItemRaw),
      owner ≠ "" → repo ≠ "" →
      (∀ it ∈ items, (∃ p0, it.path = some p0) ∧ (∃ s0, it.sha = some s0) ∧
        (it.itemType = some "file" ∨ it.itemType = some "dir")) →
      moveFilesValidate
        { owner := some owner, repo := some repo, files := some items,
          destination := some destination, branch := none } = []) ∧
    (∀ (r : RenameFileRaw) (prof : Profile) (up : RenameFileUpstream),
      renameFileValidate r = [] → prof.github_access_token ≠ "" →
      httpOk up.getStatus = true → httpOk up.putStatus = true →
      Call.putContents (r.owner.getD "") (r.repo.getD "") (r.new_path.getD "")
          ⟨"Rename " ++ r.path.getD "" ++ " to " ++ r.new_path.getD "",
           up.getFile.content, r.branch.getD "main", none⟩ ∈
        (renameFileRun r true (some prof) up).2) ∧
    (∀ (r : MoveFilesRaw) (prof : Profile) (up : MoveUpstream) (f : MoveItem) (fd : GitFile),
      moveFilesValidate r = [] → prof.github_access_token ≠ "" →
      f ∈ (moveFilesParse r).files → up.read f.path = some fd →
      Call.putContents (moveFilesParse r).owner (moveFilesParse r).repo
          (moveNewPath (moveFilesParse r).destination f.path)
          ⟨"Move " ++ f.path ++ " to " ++ moveNewPath (moveFilesParse r).destination f.path,
           fd.content, (moveFilesParse r).branch, none⟩ ∈
        (moveFilesRun r true (some prof) up).2) := by
  refine ⟨?_, ?_, ?_, ?_, ?_, ?_, ?_⟩
  · intro r user profile enc up s hp hf
    exact createFileRun_invalid r user profile enc up (createFileValidate_ne r hp hf)
  · intro r profile up s hp hf
    exact deleteFileRun_invalid r profile up (deleteFileValidate_ne r hp hf)
  · intro r user profile up fs i h s hfs hp hf
    exact uploadFilesRun_invalid r user profile up (uploadFilesValidate_ne r hfs h hp hf)
  · intro owner repo path new_path sha ho hr hs
    simp only [moveFilesValidate, renameFileValidate, checkStr_min1 "owner" ho,
      checkStr_min1 "repo" hr, checkStr_min1 "sha" hs, checkStr_plain, checkOptStr,
      List.append_nil, List.nil_append]
  · intro owner repo destination items ho hr hitems
    simp only [moveFilesValidate, checkStr_min1 "owner" ho, checkStr_min1 "repo" hr,
      checkStr_plain, checkOptStr, List.append_nil, List.nil_append]
    rw [List.flatten_eq_nil_iff]
    intro l hl
    obtain ⟨pr, hpr, rfl⟩ := List.mem_map.mp hl
    obtain ⟨⟨p0, hp0⟩, ⟨s0, hs0⟩, hty⟩ := hitems pr.2 (List.snd_mem_of_mem_enum hpr)
    rcases hty with hty | hty <;>
      simp [moveItemErrors, hp0, hs0, hty, checkStr_plain, checkFileDir]
  · intro r prof up hv ht hg hp
    rw [renameFileRun_happy r prof up hv ht hg hp]
    simp
  · intro r prof up f fd hv ht hf hread
    rw [moveFilesRun_trace r prof up hv ht]
    simp only
    apply List.mem_flatten.mpr
    refine ⟨moveItemCalls (moveFilesParse r).owner (moveFilesParse r).repo
      (moveFilesParse r).destination (moveFilesParse r).branch up f,
      List.mem_map_of_mem _ hf, ?_⟩
    simp [moveItemCalls, hread]

/-- C4, witness: the rejection clauses at concrete traversal inputs and the
acceptance and flow-through clauses at concrete unconstrained inputs. -/
theorem claim_C4_witness :
    createFileRun rawCreateDotDot true (some profAlice) (fun s => s) upCreate0 =
      ({ status := 400, error := some "Invalid input",
         details := some (createFileValidate rawCreateDotDot) }, []) ∧
    deleteFileRun rawDeleteDotDot (some profAlice) upDeleteExample =
      ({ status := 400, error := some "Invalid input",
         details := some (deleteFileValidate rawDeleteDotDot) }, []) ∧
    uploadFilesRun rawUploadDotDot true (some profAlice) upUpload0 =
      ({ status := 400, error := some "Invalid input",
         details := some (uploadFilesValidate rawUploadDotDot) }, []) ∧
    renameFileValidate
      { owner := some "alice", repo := some "r", path := some "..",
        new_path := some "../..", sha := some "s", branch := none } = [] ∧
    moveFilesValidate
      { owner := some "alice", repo := some "r",
        files := some [{ path := some "../a", sha := some "s", itemType := some "file" }],
        destination := some "..", branch := none } = [] ∧
    Call.putContents "mallory" "r" "../evil.txt"
        ⟨"Rename a.txt to ../evil.txt", "C", "main", none⟩ ∈
      (renameFileRun rawRenameMallory true (some profAlice) upRenameOk).2 ∧
    Call.putContents "alice" "r" "../f.txt"
        ⟨"Move x/f.txt to ../f.txt", "C", "main", none⟩ ∈
      (moveFilesRun rawMoveDotDot true (some profAlice) upMoveOk).2 :=
  ⟨claim_C4.1 rawCreateDotDot true (some profAlice) (fun s => s) upCreate0 "../x" rfl
      (by decide),
   claim_C4.2.1 rawDeleteDotDot (some profAlice) upDeleteExample "../x" rfl (by decide),
   claim_C4.2.2.1 rawUploadDotDot true (some profAlice) upUpload0
      [{ path := some "../x", content := some "c" }] 0 (by decide) "../x" rfl rfl (by decide),
   claim_C4.2.2.2.1 "alice" "r" ".." "../.." "s" (by decide) (by decide) (by decide),
   claim_C4.2.2.2.2.1 "alice" "r" ".."
      [{ path := some "../a", sha := some "s", itemType := some "file" }]
      (by decide) (by decide)
      (by
        intro it hit
        rw [List.mem_singleton] at hit
        subst hit
        exact ⟨⟨"../a", rfl⟩, ⟨"s", rfl⟩, Or.inl rfl⟩),
   claim_C4.2.2.2.2.2.1 rawRenameMallory profAlice upRenameOk (by decide) (by decide)
      (by decide) (by decide),
   claim_C4.2.2.2.2.2.2 rawMoveDotDot profAlice upMoveOk ⟨"x/f.txt", "s1", "file"⟩
      ⟨"C", "S"⟩ (by decide) (by decide) (by decide) rfl⟩

/-! ## Claim C2 -/

/-- C2, counterexample.  In the batch move loop with a read that succeeds
and a write that fails (status 500), the DELETE of the old path is issued
anyway: the handler never inspects the PUT response.  This refutes the
claim's second half, which asserts that no delete is issued when the write
fails. -/
theorem claim_C2_counterexample :
    httpOk (upMoveWriteFail.writeStatus "y/f.txt") = false ∧
    (upMoveWriteFail.read "x/f.txt").isSome = true ∧
    Call.deleteContents "alice" "r" "x/f.txt" "Delete old file x/f.txt" "s1" (some "main") ∈
      (moveFilesRun rawMoveAlice true (some profAlice) upMoveWriteFail).2 := by
  decide

/-- C2 (amended): in the batch move handler, an item whose read fails is
skipped entirely (only its GET appears, no write and no delete) and
processing continues with the next item — the batch trace is the in-order
concatenation of the per-item traces.  But when the read succeeds, the
write and the delete are both issued unconditionally: the write's outcome
is never examined, so the delete of the old path happens even when the
write to `destination/basename(path)` failed. -/
theorem claim_C2 :
    (∀ (owner repo dest br : String) (up : MoveUpstream) (f : MoveItem),
      up.read f.path = none →
      moveItemCalls owner repo dest br up f = [Call.getContents owner repo f.path br]) ∧
    (∀ (owner repo dest br : String) (up : MoveUpstream) (f : MoveItem) (fd : GitFile),
      up.read f.path = some fd →
      moveItemCalls owner repo dest br up f =
        [Call.getContents owner repo f.path br,
         Call.putContents owner repo (moveNewPath dest f.path)
           ⟨"Move " ++ f.path ++ " to " ++ moveNewPath dest f.path, fd.content, br, none⟩,
         Call.deleteContents owner repo f.path ("Delete old file " ++ f.path) f.sha
           (some br)]) ∧
    (∀ (r : MoveFilesRaw) (prof : Profile) (up : MoveUpstream),
      moveFilesValidate r = [] → prof.github_access_token ≠ "" →
      (moveFilesRun r true (some prof) up).2 =
        ((moveFilesParse r).files.map
          (moveItemCalls (moveFilesParse r).owner (moveFilesParse r).repo
            (moveFilesParse r).destination (moveFilesParse r).branch up)).flatten) := by
  refine ⟨?_, ?_, ?_⟩
  · intro owner repo dest br up f h
    simp [moveItemCalls, h]
  · intro owner repo dest br up f fd h
    simp [moveItemCalls, h]
  · intro r prof up hv ht
    rw [moveFilesRun_trace r prof up hv ht]

/-- C2, witness: the three clauses at concrete inputs. -/
theorem claim_C2_witness :
    moveItemCalls "alice" "r" "y" "main" upMoveReadFail ⟨"x/f.txt", "s1", "file"⟩ =
      [Call.getContents "alice" "r" "x/f.txt" "main"] ∧
    moveItemCalls "alice" "r" "y" "main" upMoveWriteFail ⟨"x/f.txt", "s1", "file"⟩ =
      [Call.getContents "alice" "r" "x/f.txt" "main",
       Call.putContents "alice" "r" "y/f.txt"
         ⟨"Move x/f.txt to y/f.txt", "C", "main", none⟩,
       Call.deleteContents "alice" "r" "x/f.txt" "Delete old file x/f.txt" "s1"
         (some "main")] ∧
    (moveFilesRun rawMoveAlice true (some profAlice) upMoveOk).2 =
      ((moveFilesParse rawMoveAlice).files.map
        (moveItemCalls (moveFilesParse rawMoveAlice).owner (moveFilesParse rawMoveAlice).repo
          (moveFilesParse rawMoveAlice).destination (moveFilesParse rawMoveAlice).branch
          upMoveOk)).flatten :=
  ⟨claim_C2.1 "alice" "r" "y" "main" upMoveReadFail ⟨"x/f.txt", "s1", "file"⟩ rfl,
   claim_C2.2.1 "alice" "r" "y" "main" upMoveWriteFail ⟨"x/f.txt", "s1", "file"⟩ ⟨"C", "S"⟩ rfl,
   claim_C2.2.2 rawMoveAlice profAlice upMoveOk (by decide) (by decide)⟩

/-! ## Claim C5 -/

/-- C5, counterexample.  For a directory-delete whose target path is `a/`
(schema-valid: no `..`, no leading slash), the handler's prefix is `a/`
itself, so the entry `a/b.txt` is dropped and the posted tree is empty —
while the claim's characterization (`path ≠ target and not prefixed by
target ++ "/"`, i.e. by `a//`) would retain `a/b.txt`. -/
theorem claim_C5_counterexample :
    deleteFileValidate rawDeleteSlashDir = [] ∧
    (deleteFileRun rawDeleteSlashDir (some profAlice) upDeleteSlash).2 =
      [Call.getRef "alice" "r" "main", Call.getCommit "alice" "r" "tip",
       Call.getTreeRecursive "alice" "r" "t0",
       Call.postTree "alice" "r" [],
       Call.postCommit "alice" "r" "Delete directory a/" "nt" ["tip"],
       Call.patchRef "alice" "r" "main" "nc"] ∧
    upDeleteSlash.tree.filter (fun item => specDirKeep "a/" item.path) =
      [⟨"a/b.txt", "100644", "blob", "s2"⟩] ∧
    ([] : List TreeEntry) ≠ [⟨"a/b.txt", "100644", "blob", "s2"⟩] := by
  decide

/-- C5 (amended): on the happy path of a directory delete, the handler posts
a new tree holding exactly the entries kept by `dirDeleteKeep` — path
neither equal to the target nor prefixed by the target with a trailing slash
appended when not already present — then posts a commit whose sole parent is
the prior branch tip, and patches the branch ref to the new commit.  For
every target that does not end in `/` (in particular the claim's example
`a`), `dirDeleteKeep` coincides with the claim's characterization. -/
theorem claim_C5 :
    (∀ (r : DeleteFileRaw) (prof : Profile) (up : DeleteUpstream),
      deleteFileValidate r = [] → r.owner.getD "" = prof.github_username →
      r.objType = some "dir" →
      httpOk up.refStatus = true → httpOk up.commitStatus = true →
      httpOk up.treeStatus = true → httpOk up.newTreeStatus = true →
      httpOk up.newCommitStatus = true → httpOk up.patchStatus = true →
      deleteFileRun r (some prof) up =
        ({ status := 200, success := true },
         [Call.getRef (r.owner.getD "") (r.repo.getD "") (jsOr r.branch "main"),
          Call.getCommit (r.owner.getD "") (r.repo.getD "") up.refSha,
          Call.getTreeRecursive (r.owner.getD "") (r.repo.getD "") up.commitTreeSha,
          Call.postTree (r.owner.getD "") (r.repo.getD "")
            (up.tree.filter (fun item => dirDeleteKeep (r.path.getD "") item.path)),
          Call.postCommit (r.owner.getD "") (r.repo.getD "")
            ("Delete directory " ++ r.path.getD "") up.newTreeSha [up.refSha],
          Call.patchRef (r.owner.getD "") (r.repo.getD "") (jsOr r.branch "main")
            up.newCommitSha])) ∧
    (∀ (target entryPath : String), jsEnds target "/" = false →
      dirDeleteKeep target entryPath = specDirKeep target entryPath) ∧
    (∀ (target : String) (tree : List TreeEntry), jsEnds target "/" = false →
      tree.filter (fun item => dirDeleteKeep target item.path) =
        tree.filter (fun item => specDirKeep target item.path)) := by
  refine ⟨?_, ?_, ?_⟩
  · intro r prof up hv ho hd h1 h2 h3 h4 h5 h6
    simp [deleteFileRun, deleteFileParse, hv, ho, hd, h1, h2, h3, h4, h5, h6,
      dirDeleteNewTree, treeEntry_proj_map]
  · intro target entryPath h
    simp [dirDeleteKeep, specDirKeep, h, Bool.and_comm]
  · intro target tree h
    apply List.filter_congr
    intro x _
    simp [dirDeleteKeep, specDirKeep, h, Bool.and_comm]

/-- C5, witness: the specification's example — deleting directory `a` from
the tree `[a, a/b.txt, a/c/d.txt, e.txt]` posts exactly `[e.txt]`, a commit
parented on the prior tip `tip`, and a ref update to the new commit `nc`. -/
theorem claim_C5_witness :
    deleteFileRun rawDeleteDirA (some profAlice) upDeleteExample =
      ({ status := 200, success := true },
       [Call.getRef "alice" "r" "main", Call.getCommit "alice" "r" "tip",
        Call.getTreeRecursive "alice" "r" "t0",
        Call.postTree "alice" "r"
          (upDeleteExample.tree.filter (fun item => dirDeleteKeep "a" item.path)),
        Call.postCommit "alice" "r" "Delete directory a" "nt" ["tip"],
        Call.patchRef "alice" "r" "main" "nc"]) ∧
    upDeleteExample.tree.filter (fun item => dirDeleteKeep "a" item.path) =
      [⟨"e.txt", "100644", "blob", "s4"⟩] ∧
    dirDeleteKeep "a" "a/b.txt" = specDirKeep "a" "a/b.txt" :=
  ⟨claim_C5.1 rawDeleteDirA profAlice upDeleteExample (by decide) (by decide) rfl
      (by decide) (by decide) (by decide) (by decide) (by decide) (by decide),
   by decide,
   claim_C5.2.1 "a" "a/b.txt" (by decide)⟩

/-! ## Claim C6 -/

/-- C6, counterexample.  When the destination probe succeeds but the probed
JSON's sha is the empty string (a falsy value), the issued write carries no
sha even though the probe found an existing file: the full trace of the run
shows the PUT for `f.txt` with `sha = none` while `probeDest` returned
`some`. -/
theorem claim_C6_counterexample :
    (upSyncEmptySha.probeDest "f.txt").isSome = true ∧
    (syncRun rawSync (some profAlice) upSyncEmptySha).2 =
      [Call.getRepo "alice" "src", Call.getRepo "alice" "dst",
       Call.ensureBranch "alice" "dst" "dev", Call.getTreeRecursive "alice" "src" "main",
       Call.getContents "alice" "src" "f.txt" "main",
       Call.getContents "alice" "dst" "f.txt" "dev",
       Call.putContents "alice" "dst" "f.txt"
         ⟨"Sync: Merged f.txt from src:main", "C", "dev", none⟩] := by
  decide

/-- C6 (amended): the sync write carries the destination's existing sha if
and only if the destination probe succeeded and its sha is nonempty (truthy);
when it does, the carried value is exactly the probed sha, and when no
destination file is present the sha field is omitted.  Each synced file's
calls are source GET, destination probe GET, then the PUT with the
probe-derived sha argument. -/
theorem claim_C6 :
    (∀ p : Option GitFile, (syncShaArg p).isSome = true ↔ ∃ ex, p = some ex ∧ ex.sha ≠ "") ∧
    (∀ ex : GitFile, ex.sha ≠ "" → syncShaArg (some ex) = some ex.sha) ∧
    syncShaArg none = none ∧
    (∀ (up : SyncUpstream) (owner sR dR sB dB : String) (f : TreeEntry) (fd : GitFile),
      up.readFile f.path = some fd →
      syncFileCalls up owner sR dR sB dB f =
        [Call.getContents owner sR f.path sB,
         Call.getContents owner dR f.path dB,
         Call.putContents owner dR f.path
           ⟨"Sync: Merged " ++ f.path ++ " from " ++ sR ++ ":" ++ sB, fd.content, dB,
            syncShaArg (up.probeDest f.path)⟩]) := by
  refine ⟨?_, ?_, rfl, ?_⟩
  · intro p
    cases p with
    | none => simp [syncShaArg]
    | some ex =>
      by_cases h : ex.sha = ""
      · simp [syncShaArg, h]
      · simp [syncShaArg, h]
  · intro ex h
    simp [syncShaArg, h]
  · intro up owner sR dR sB dB f fd hread
    simp [syncFileCalls, hread]

/-- C6, witness: with a destination file carrying sha `dsha`, the write
includes it; with no destination file, the sha is omitted. -/
theorem claim_C6_witness :
    syncShaArg (some ⟨"old", "dsha"⟩) = some "dsha" ∧
    syncFileCalls upSyncFound "alice" "src" "dst" "main" "dev"
        ⟨"f.txt", "100644", "blob", "s1"⟩ =
      [Call.getContents "alice" "src" "f.txt" "main",
       Call.getContents "alice" "dst" "f.txt" "dev",
       Call.putContents "alice" "dst" "f.txt"
         ⟨"Sync: Merged f.txt from src:main", "C", "dev",
          syncShaArg (upSyncFound.probeDest "f.txt")⟩] ∧
    syncShaArg none = none :=
  ⟨claim_C6.2.1 ⟨"old", "dsha"⟩ (by decide),
   claim_C6.2.2.2 upSyncFound "alice" "src" "dst" "main" "dev"
     ⟨"f.txt", "100644", "blob", "s1"⟩ ⟨"C", "S"⟩ rfl,
   claim_C6.2.2.1⟩

/-! ## Claim C7 -/

/-- C7 (confirmed): on the happy path, the sync handler iterates exactly the
first `MAX_FILES = 100` blob entries of the tree listing (non-blob entries
are filtered out before the cap), responds success with `total_files` the
uncapped blob count and `files_synced` the number of attempted files whose
read and write both succeeded, and its trace is the prelude plus the
per-attempted-file calls; the attempted list never exceeds 100 entries and
contains only blobs. -/
theorem claim_C7 :
    ∀ (r : SyncRaw) (prof : Profile) (up : SyncUpstream),
      syncValidate r = [] →
      syncRepoCheck up prof.github_username (r.sourceRepo.getD "") = none →
      syncRepoCheck up prof.github_username (r.destRepo.getD "") = none →
      up.branchOk = true → httpOk up.treeStatus = true →
      syncRun r (some prof) up =
        ({ status := 200, success := true,
           files_synced := some
             (((up.tree.filter (fun item => item.entryType = "blob")).take MAX_FILES).filter
               (syncFileOk up)).length,
           total_files := some (up.tree.filter (fun item => item.entryType = "blob")).length },
         [Call.getRepo prof.github_username (r.sourceRepo.getD ""),
          Call.getRepo prof.github_username (r.destRepo.getD ""),
          Call.ensureBranch prof.github_username (r.destRepo.getD "") (r.destBranch.getD "")] ++
           [Call.getTreeRecursive prof.github_username (r.sourceRepo.getD "")
             (r.sourceBranch.getD "")] ++
           (((up.tree.filter (fun item => item.entryType = "blob")).take MAX_FILES).map
             (syncFileCalls up prof.github_username (r.sourceRepo.getD "")
               (r.destRepo.getD "") (r.sourceBranch.getD "")
               (r.destBranch.getD ""))).flatten) ∧
      ((up.tree.filter (fun item => item.entryType = "blob")).take MAX_FILES).length ≤ 100 ∧
      (∀ f ∈ (up.tree.filter (fun item => item.entryType = "blob")).take MAX_FILES,
        f.entryType = "blob") := by
  intro r prof up hv hs hd hb htr
  refine ⟨?_, ?_, ?_⟩
  · simp [syncRun, hv, hs, hd, hb, htr]
  · exact List.length_take_le MAX_FILES (up.tree.filter fun item => item.entryType = "blob")
  · intro f hf
    have hf2 := List.mem_of_mem_take hf
    exact of_decide_eq_true (List.mem_filter.mp hf2).2

/-- C7, witness: a source tree with 101 blobs and one tree entry; the run
reports 101 total files, 100 synced (all attempted succeed), and success. -/
theorem claim_C7_witness :
    (syncRun rawSync (some profAlice) upSyncBig).1.total_files = some 101 ∧
    (syncRun rawSync (some profAlice) upSyncBig).1.files_synced = some 100 ∧
    (syncRun rawSync (some profAlice) upSyncBig).1.status = 200 ∧
    (syncRun rawSync (some profAlice) upSyncBig).1.success = true := by
  obtain ⟨h1, h2, h3⟩ := claim_C7 rawSync profAlice upSyncBig (by decide) (by decide)
    (by decide) rfl (by decide)
  rw [h1]
  refine ⟨by decide, by decide, rfl, rfl⟩

/-! ## Claim C8 -/

/-- C8 (confirmed): a single-item move of a file at `x ++ "/" ++ base` (with
`base` slash-free) to a nonempty destination `y` issues the GET of the old
path, then the PUT to `y/base` carrying the content the GET returned, then
the DELETE of the old path carrying the item's supplied sha — in that order;
and the batch trace is the in-order concatenation of the per-item traces
(the loop awaits each call before the next, never in parallel). -/
theorem claim_C8 :
    (∀ (owner repo dest br x base : String) (up : MoveUpstream) (f : MoveItem) (fd : GitFile),
      f.path = x ++ "/" ++ base →
      base.data.all (fun c => !(c == '/')) = true →
      dest ≠ "" →
      up.read f.path = some fd →
      moveItemCalls owner repo dest br up f =
        [Call.getContents owner repo f.path br,
         Call.putContents owner repo (dest ++ "/" ++ base)
           ⟨"Move " ++ f.path ++ " to " ++ (dest ++ "/" ++ base), fd.content, br, none⟩,
         Call.deleteContents owner repo f.path ("Delete old file " ++ f.path) f.sha
           (some br)]) ∧
    (∀ (r : MoveFilesRaw) (prof : Profile) (up : MoveUpstream),
      moveFilesValidate r = [] → prof.github_access_token ≠ "" →
      (moveFilesRun r true (some prof) up).2 =
        ((moveFilesParse r).files.map
          (moveItemCalls (moveFilesParse r).owner (moveFilesParse r).repo
            (moveFilesParse r).destination (moveFilesParse r).branch up)).flatten) := by
  constructor
  · intro owner repo dest br x base up f fd hpath hbase hdest hread
    have hnew : moveNewPath dest f.path = dest ++ "/" ++ base := by
      rw [moveNewPath, hpath, lastSeg_append x base hbase]
      simp [hdest]
    simp [moveItemCalls, hread, hnew]
  · intro r prof up hv ht
    rw [moveFilesRun_trace r prof up hv ht]

/-- C8, witness: moving `x/old.txt` to destination `y` at concrete inputs
yields exactly GET `x/old.txt`, PUT `y/old.txt` with the read content, then
DELETE `x/old.txt` with the supplied sha. -/
theorem claim_C8_witness :
    moveItemCalls "alice" "r" "y" "main" upMoveOk ⟨"x/old.txt", "sha1", "file"⟩ =
      [Call.getContents "alice" "r" "x/old.txt" "main",
       Call.putContents "alice" "r" "y/old.txt"
         ⟨"Move x/old.txt to y/old.txt", "C", "main", none⟩,
       Call.deleteContents "alice" "r" "x/old.txt" "Delete old file x/old.txt" "sha1"
         (some "main")] ∧
    (moveFilesRun rawMoveAlice true (some profAlice) upMoveOk).2 =
      ((moveFilesParse rawMoveAlice).files.map
        (moveItemCalls (moveFilesParse rawMoveAlice).owner (moveFilesParse rawMoveAlice).repo
          (moveFilesParse rawMoveAlice).destination (moveFilesParse rawMoveAlice).branch
          upMoveOk)).flatten :=
  ⟨claim_C8.1 "alice" "r" "y" "main" "x" "old.txt" upMoveOk ⟨"x/old.txt", "sha1", "file"⟩
      ⟨"C", "S"⟩ (by decide) (by decide) (by decide) rfl,
   claim_C8.2 rawMoveAlice profAlice upMoveOk (by decide) (by decide)⟩

/-! ## Claim C9 -/

/-- C9 (confirmed): a validated batch upload carries 1..100 files; the
handler attempts one PUT per file (the trace has one entry per input file,
no early abort), the results array is the per-file map keeping each file's
path and its individual write outcome, and the summary is
`{total := N, successful := count of successful writes, failed := N - that}`
— with the successful and failed counts partitioning N, so that with k
failed writes the summary reads `{N, N - k, k}`. -/
theorem claim_C9 :
    ∀ (r : UploadFilesRaw) (prof : Profile) (up : UploadUpstream),
      uploadFilesValidate r = [] → prof.github_access_token ≠ "" →
      prof.github_username ≠ "" → r.owner.getD "" = prof.github_username →
      (1 ≤ (uploadFilesParse r).files.length ∧ (uploadFilesParse r).files.length ≤ 100) ∧
      (uploadFilesRun r true (some prof) up).1.summary =
        some ⟨(uploadFilesParse r).files.length,
              ((uploadFilesParse r).files.filter
                (fun f => httpOk (up.putStatus f.path))).length,
              (uploadFilesParse r).files.length -
                ((uploadFilesParse r).files.filter
                  (fun f => httpOk (up.putStatus f.path))).length⟩ ∧
      (((uploadFilesParse r).files.filter (fun f => httpOk (up.putStatus f.path))).length +
          ((uploadFilesParse r).files.filter
            (fun f => !httpOk (up.putStatus f.path))).length =
        (uploadFilesParse r).files.length ∧
       ((uploadFilesParse r).files.filter (fun f => httpOk (up.putStatus f.path))).length =
        (uploadFilesParse r).files.length -
          ((uploadFilesParse r).files.filter
            (fun f => !httpOk (up.putStatus f.path))).length ∧
       (uploadFilesParse r).files.length -
          ((uploadFilesParse r).files.filter
            (fun f => httpOk (up.putStatus f.path))).length =
        ((uploadFilesParse r).files.filter
          (fun f => !httpOk (up.putStatus f.path))).length) ∧
      (uploadFilesRun r true (some prof) up).1.results =
        (uploadFilesParse r).files.map (uploadResultOf up) ∧
      (uploadFilesRun r true (some prof) up).1.results.length =
        (uploadFilesParse r).files.length ∧
      (∀ f : UFile, (uploadResultOf up f).path = f.path ∧
        (uploadResultOf up f).success = httpOk (up.putStatus f.path)) ∧
      (uploadFilesRun r true (some prof) up).2 =
        (uploadFilesParse r).files.map (fun f =>
          Call.putContents (uploadFilesParse r).owner (uploadFilesParse r).repo f.path
            (uploadPutBody (uploadFilesParse r).message (uploadFilesParse r).branch f)) ∧
      (uploadFilesRun r true (some prof) up).2.length =
        (uploadFilesParse r).files.length := by
  intro r prof up hv ht hu ho
  obtain ⟨fs, hfs, hlo, hhi⟩ := uploadFilesValidate_files_bounds r hv
  have hlen : (uploadFilesParse r).files.length = fs.length := by
    simp [uploadFilesParse, hfs]
  have hpart := length_filter_add_length_filter_not (uploadFilesParse r).files
    (fun f => httpOk (up.putStatus f.path))
  have hcnt := length_filter_success up (uploadFilesParse r).files
  refine ⟨⟨by omega, by omega⟩, ?_, ⟨hpart, by omega, by omega⟩, ?_, ?_, ?_, ?_, ?_⟩
  · have hsum : (uploadFilesRun r true (some prof) up).1.summary =
        some ⟨(uploadFilesParse r).files.length,
              (((uploadFilesParse r).files.map (uploadResultOf up)).filter
                (fun a => a.success)).length,
              (uploadFilesParse r).files.length -
                (((uploadFilesParse r).files.map (uploadResultOf up)).filter
                  (fun a => a.success)).length⟩ := by
      simp [uploadFilesRun, uploadFilesParse, hv, ht, hu, ho]
    rw [hsum, hcnt]
  · simp [uploadFilesRun, uploadFilesParse, hv, ht, hu, ho]
  · simp [uploadFilesRun, uploadFilesParse, hv, ht, hu, ho]
  · intro f
    exact ⟨uploadResultOf_path up f, uploadResultOf_success up f⟩
  · simp [uploadFilesRun, uploadFilesParse, hv, ht, hu, ho, uploadPutBody]
  · simp [uploadFilesRun, uploadFilesParse, hv, ht, hu, ho]

/-- C9, witness: two files with the write of `b.txt` failing — summary
`{2, 1, 1}` and both files attempted. -/
theorem claim_C9_witness :
    (uploadFilesRun rawUploadAB true (some profAlice) upUploadBfail).1.summary =
      some ⟨2, 1, 1⟩ ∧
    (uploadFilesRun rawUploadAB true (some profAlice) upUploadBfail).1.results =
      [⟨"a.txt", true, none⟩, ⟨"b.txt", false, some "err"⟩] ∧
    (uploadFilesRun rawUploadAB true (some profAlice) upUploadBfail).2.length = 2 := by
  obtain ⟨-, h2, -, h4, -, -, -, h8⟩ :=
    claim_C9 rawUploadAB profAlice upUploadBfail (by decide) (by decide) (by decide)
      (by decide)
  rw [h2, h4, h8]
  refine ⟨by decide, by decide, by decide⟩

/-! ## Claim C10 -/

/-- C10 (confirmed): every upstream write issued by the batch upload handler
is a contents PUT whose body carries exactly message (the shared one or
`Upload <path>`), the raw content and the branch (default `main`), and never
a sha — the trace is one such PUT per input file, with no destination probe
of any kind. -/
theorem claim_C10 :
    ∀ (r : UploadFilesRaw) (prof : Profile) (up : UploadUpstream),
      uploadFilesValidate r = [] → prof.github_access_token ≠ "" →
      prof.github_username ≠ "" → r.owner.getD "" = prof.github_username →
      (uploadFilesRun r true (some prof) up).2 =
        (uploadFilesParse r).files.map (fun f =>
          Call.putContents (uploadFilesParse r).owner (uploadFilesParse r).repo f.path
            ⟨jsOr (uploadFilesParse r).message ("Upload " ++ f.path), f.content,
             jsOr (uploadFilesParse r).branch "main", none⟩) ∧
      (∀ c ∈ (uploadFilesRun r true (some prof) up).2,
        ∃ f ∈ (uploadFilesParse r).files,
          c = Call.putContents (uploadFilesParse r).owner (uploadFilesParse r).repo f.path
            ⟨jsOr (uploadFilesParse r).message ("Upload " ++ f.path), f.content,
             jsOr (uploadFilesParse r).branch "main", none⟩) := by
  intro r prof up hv ht hu ho
  have htr : (uploadFilesRun r true (some prof) up).2 =
      (uploadFilesParse r).files.map (fun f =>
        Call.putContents (uploadFilesParse r).owner (uploadFilesParse r).repo f.path
          ⟨jsOr (uploadFilesParse r).message ("Upload " ++ f.path), f.content,
           jsOr (uploadFilesParse r).branch "main", none⟩) := by
    simp [uploadFilesRun, uploadFilesParse, hv, ht, hu, ho, uploadPutBody]
  refine ⟨htr, ?_⟩
  intro c hc
  rw [htr] at hc
  obtain ⟨f, hf, rfl⟩ := List.mem_map.mp hc
  exact ⟨f, hf, rfl⟩

/-- C10, witness: with one shared-message-free two-file batch, the trace is
exactly the two sha-free PUTs. -/
theorem claim_C10_witness :
    (uploadFilesRun rawUploadAB true (some profAlice) upUploadBfail).2 =
      [Call.putContents "alice" "r" "a.txt" ⟨"Upload a.txt", "A", "main", none⟩,
       Call.putContents "alice" "r" "b.txt" ⟨"Upload b.txt", "B", "main", none⟩] := by
  rw [(claim_C10 rawUploadAB profAlice upUploadBfail (by decide) (by decide) (by decide)
    (by decide)).1]
  decide

end RepoPush
